import Mathlib

/-!
Shallow embedding of `pkg/policy/criteria/client_certificate.go` from the
pomerium repository: the `client_certificate` criterion compiler, which turns
a configuration value (string / sequence / object tree) into an OPA rule body
made of a fixed fact-extraction prologue followed by per-condition fragments
(an allow-list assignment plus a membership constraint).

Machine strings are Lean `String`s (lists of characters); Go's `error` returns
become `Except String`; the OPA AST is modelled by the `Stmt`/`AstTerm` types
below, keeping exactly the structure the source constructs.
-/

set_option maxRecDepth 4000

/-- Modelled from the spec (section 3): the configuration value tree produced by
the external `pkg/policy/parser` package, which is not part of the sources here.
The spec's data model is String / Sequence / Object (ordered key-value pairs
with distinct keys, per section 1 "ordered key/value objects"); the parser also
produces scalar Boolean, Null and Number values, which the compiler's shape
checks reject. -/
inductive PValue where
  | str (s : String)
  | arr (elems : List PValue)
  | obj (fields : List (String × PValue))
  | bool (b : Bool)
  | null
  | num (n : Int)

/-- Modelled from the spec: Go's `%T` rendering of a `parser.Value`'s dynamic
type, used by the "expected object" error message. -/
def goTypeName : PValue → String
  | .str _ => "parser.String"
  | .arr _ => "parser.Array"
  | .obj _ => "parser.Object"
  | .bool _ => "parser.Boolean"
  | .null => "parser.Null"
  | .num _ => "parser.Number"

/-- Modelled from the spec: Go's `%v` rendering of a `parser.Value` (a
JSON-style human-readable rendering; string escaping elided). Used only inside
"must be a string" error messages. -/
def pvalueRender : PValue → String
  | .str s => "\x22" ++ s ++ "\x22"
  | .arr _ => "[...]"
  | .obj _ => "\x7b...\x7d"
  | .bool b => if b then "true" else "false"
  | .null => "null"
  | .num n => toString n

/-- A term of the OPA AST as constructed by the source: either `ast.VarTerm(n)`
(the name may literally contain a `[_]` wildcard suffix, as in
`ast.VarTerm("allowed_fingerprints[_]")`) or an array literal of strings
(`ast.NewTerm(ra)` where `ra` collects `ast.String` values). -/
inductive AstTerm where
  | varTerm (name : String)
  | arrayTerm (vals : List String)
deriving DecidableEq, Repr

/-- A statement of the generated rule body.

* `factDerivation lhs refs` — one line of the fixed prologue
  (`clientCertificateBaseBody`): `lhs := <builtin expression>(refs...)`.
* `assign lhs rhs` — `ast.Assign.Expr(lhs, rhs)`, i.e. `lhs := rhs`.
* `equal lhs rhs` — `ast.Equal.Expr(lhs, rhs)`, i.e. `lhs == rhs`.
* `someDecl v` — the `some v` declaration of the URI check body.
* `sprintfURIEq coll idx allow` — the URI check expression
  `sprintf("%s://%s%s", [coll[idx].Scheme, coll[idx].Host, coll[idx].Path])
   == allow[_]`. -/
inductive Stmt where
  | factDerivation (lhs : String) (refs : List String)
  | assign (lhs rhs : AstTerm)
  | equal (lhs rhs : AstTerm)
  | someDecl (v : String)
  | sprintfURIEq (coll idx allow : String)
deriving DecidableEq, Repr

/-- The fixed fact-extraction prologue, from `clientCertificateBaseBody`:
parse the leaf certificate, then derive the fingerprint, SPKI hash and the
four SAN fact sequences. -/
def clientCertificateBaseBody : List Stmt :=
  [.factDerivation "cert" ["input"],
   .factDerivation "fingerprint" ["cert"],
   .factDerivation "spki_hash" ["cert"],
   .factDerivation "san_email_addresses" ["cert"],
   .factDerivation "san_dns_names" ["cert"],
   .factDerivation "san_ip_addresses" ["cert"],
   .factDerivation "san_uris" ["cert"]]

/-! ### Character classes and string helpers -/

/-- Characters in `[0-9a-f]` (codepoints 48-57 and 97-102). -/
def isLowerHexChar (c : Char) : Bool :=
  (48 ≤ c.toNat && c.toNat ≤ 57) || (97 ≤ c.toNat && c.toNat ≤ 102)

/-- Characters in `[0-9A-F]` (codepoints 48-57 and 65-70). -/
def isUpperHexChar (c : Char) : Bool :=
  (48 ≤ c.toNat && c.toNat ≤ 57) || (65 ≤ c.toNat && c.toNat ≤ 70)

/-- Characters in `[0-9a-fA-F]`. -/
def isHexDigitChar (c : Char) : Bool := isLowerHexChar c || isUpperHexChar c

/-- Characters in `[0-9]`. -/
def isDigitChar (c : Char) : Bool := 48 ≤ c.toNat && c.toNat ≤ 57

/-- Characters in `[a-zA-Z0-9_]` — the first character of a DNS label in the source's regex. -/
def isDNSFirstChar (c : Char) : Bool :=
  (65 ≤ c.toNat && c.toNat ≤ 90) || (97 ≤ c.toNat && c.toNat ≤ 122) ||
    isDigitChar c || c.toNat == 95

/-- Characters in `[a-zA-Z0-9_-]` — a subsequent character of a DNS label. -/
def isDNSRestChar (c : Char) : Bool := isDNSFirstChar c || c.toNat == 45

/-- Modelled from the spec: Go's `strings.ToLower` restricted to ASCII (the
compiler only applies it to strings matched by the uppercase-hex fingerprint
pattern, so non-ASCII lowering never arises). -/
def asciiToLower (c : Char) : Char :=
  if 65 ≤ c.toNat ∧ c.toNat ≤ 90 then Char.ofNat (c.toNat + 32) else c

/-- Go `strings.ToLower` on a whole string (ASCII model). -/
def stringsToLower (s : String) : String := String.mk (s.data.map asciiToLower)

/-- Go `strings.ReplaceAll(s, ":", "")`. -/
def removeColons (s : String) : String :=
  String.mk (s.data.filter (fun c => c ≠ ':'))

/-! ### Fingerprint grammar, from the two regular expressions in the source -/

/-- Pattern `^[0-9a-f]{64}$` — the short certificate fingerprint format
(`shortCertFingerprintRE`). -/
def shortCertFingerprintMatch (s : String) : Bool :=
  s.data.length == 64 && s.data.all isLowerHexChar

/-- Matches `(:[0-9A-F]{2}){n}` exactly. -/
def longFingerprintPairs : Nat → List Char → Bool
  | 0, cs => cs.isEmpty
  | n + 1, c :: a :: b :: rest =>
      c = ':' && isUpperHexChar a && isUpperHexChar b && longFingerprintPairs n rest
  | _ + 1, _ => false

/-- Pattern `^[0-9A-F]{2}(:[0-9A-F]{2}){31}$` — the long certificate fingerprint
format (`longCertFingerprintRE`). -/
def longCertFingerprintMatch (s : String) : Bool :=
  match s.data with
  | a :: b :: rest => isUpperHexChar a && isUpperHexChar b && longFingerprintPairs 31 rest
  | _ => false

/-- Function `canonicalCertFingerprint` from the source: a fingerprint value must be a
string; the empty string is rejected; the short form passes through unchanged;
the long form is converted by removing colons and lowercasing; anything else
is an unsupported-format error. -/
def canonicalCertFingerprint (data : PValue) : Except String String :=
  match data with
  | .str s =>
      if s = "" then
        .error "certificate fingerprint must not be empty"
      else if shortCertFingerprintMatch s then
        .ok s
      else if longCertFingerprintMatch s then
        .ok (stringsToLower (removeColons s))
      else
        .error ("unsupported certificate fingerprint format (" ++ s ++ ")")
  | _ =>
      .error ("certificate fingerprint must be a string (was " ++ pvalueRender data ++ ")")

/-! ### Models of the Go standard-library validators used by the source -/

/-- Standard base64 alphabet value of a character, `none` if not in the
alphabet. -/
def base64Index (c : Char) : Option Nat :=
  if 65 ≤ c.toNat ∧ c.toNat ≤ 90 then some (c.toNat - 65)
  else if 97 ≤ c.toNat ∧ c.toNat ≤ 122 then some (c.toNat - 71)
  else if 48 ≤ c.toNat ∧ c.toNat ≤ 57 then some (c.toNat + 4)
  else if c = '+' then some 62
  else if c = '/' then some 63
  else none

/-- Decode a sequence of four-character base64 quanta; padding (`=` or `==`)
is permitted only in the final quantum. Non-canonical trailing bits are
accepted, as Go's non-strict `StdEncoding` accepts them. -/
def base64Quanta : List Char → Option (List Nat)
  | [] => some []
  | a :: b :: c :: d :: rest =>
      match base64Index a, base64Index b with
      | some x, some y =>
          if c = '=' then
            if d = '=' ∧ rest = [] then some [x * 4 + y / 16] else none
          else
            match base64Index c with
            | some z =>
                if d = '=' then
                  if rest = [] then some [x * 4 + y / 16, y % 16 * 16 + z / 4] else none
                else
                  match base64Index d with
                  | some w =>
                      (base64Quanta rest).map
                        (fun bs => (x * 4 + y / 16) :: (y % 16 * 16 + z / 4) :: (z % 4 * 64 + w) :: bs)
                  | none => none
            | none => none
      | _, _ => none
  | _ => none

/-- Modelled from the spec: Go's `base64.StdEncoding.DecodeString` — standard
alphabet, mandatory padding to a multiple of four characters, carriage returns
and newlines ignored. Returns the decoded bytes. -/
def base64StdDecode (s : String) : Option (List Nat) :=
  base64Quanta (s.data.filter (fun c => c ≠ '\r' ∧ c ≠ '\n'))

/-- Acceptance test the source applies to one SPKI hash string: nonempty and
base64-decoding to exactly 32 bytes. -/
def spkiHashOK (s : String) : Bool :=
  s ≠ "" &&
    match base64StdDecode s with
    | some bs => bs.length == 32
    | none => false

/-- Go `strings.Split`-style splitting on a single-character separator, over
character lists (structural, so concrete instances compute in the kernel). -/
def splitOnChar (sep : Char) : List Char → List (List Char)
  | [] => [[]]
  | c :: rest =>
      if c = sep then [] :: splitOnChar sep rest
      else
        match splitOnChar sep rest with
        | [] => [[c]]
        | g :: gs => (c :: g) :: gs

/-- Modelled from the spec: success predicate of Go's `net/mail.ParseAddress`
(simplified): a single `local@domain` mailbox, nonempty local part and domain,
no spaces, exactly one `@`, and every dot-separated domain part nonempty.
No verified statement below depends on its exact acceptance set. -/
def mailParseOK (s : String) : Bool :=
  match splitOnChar '@' s.data with
  | [localPart, domain] =>
      localPart ≠ [] && domain ≠ [] &&
      !(localPart.any (fun c => c.toNat = 32)) &&
      !(domain.any (fun c => c.toNat = 32)) &&
      (splitOnChar '.' domain).all (fun p => p ≠ [])
  | _ => false

/-- One label of the DNS-name pattern: `[a-zA-Z0-9_][a-zA-Z0-9_-]{0,62}`. -/
def dnsLabelOK (cs : List Char) : Bool :=
  match cs with
  | [] => false
  | c :: rest => isDNSFirstChar c && rest.length ≤ 62 && rest.all isDNSRestChar

/-- Dot-separated labels, each matching `dnsLabelOK`. -/
def dnsLabelsOK (cs : List Char) : Bool :=
  (splitOnChar '.' cs).all dnsLabelOK

/-- The DNS-name pattern from the source (extracted from govalidator):
`^([a-zA-Z0-9_]{1}[a-zA-Z0-9_-]{0,62}){1}(\.[a-zA-Z0-9_]{1}[a-zA-Z0-9_-]{0,62})*[\._]?$`,
characterized as: label(.label)* with an optional trailing `.` or `_`. -/
def dnsNameMatch (s : String) : Bool :=
  dnsLabelsOK s.data ||
    (match s.data.reverse with
     | c :: front => (c = '.' || c = '_') && dnsLabelsOK front.reverse
     | [] => false)

/-- One field of an IPv4 dotted-quad: one to three digits, value at most 255,
no leading zero (Go 1.17+ `net.ParseIP` rejects leading zeros). -/
def ipv4FieldOK (cs : List Char) : Bool :=
  match cs with
  | [] => false
  | [c] => isDigitChar c
  | c :: rest =>
      isDigitChar c && c ≠ '0' && rest.length ≤ 2 && rest.all isDigitChar &&
        (c :: rest).foldl (fun acc d => acc * 10 + (d.toNat - 48)) 0 ≤ 255

/-- IPv4 dotted-quad literal. -/
def ipv4ParseOK (cs : List Char) : Bool :=
  match splitOnChar '.' cs with
  | [a, b, c, d] => ipv4FieldOK a && ipv4FieldOK b && ipv4FieldOK c && ipv4FieldOK d
  | _ => false

/-- One 16-bit group of an IPv6 literal: one to four hex digits. -/
def ipv6GroupOK (cs : List Char) : Bool :=
  cs.length ≥ 1 && cs.length ≤ 4 && cs.all isHexDigitChar

/-- IPv6 groups on one side of a `::`, possibly ending in an embedded IPv4
dotted-quad (which counts as two groups). Returns the group count, or `none`
if malformed. -/
def ipv6Groups (parts : List (List Char)) : Option Nat :=
  match parts with
  | [] => some 0
  | [p] => if ipv6GroupOK p then some 1
           else if ipv4ParseOK p then some 2 else none
  | p :: rest => if ipv6GroupOK p then (ipv6Groups rest).map (· + 1) else none

/-- Split a character list at every occurrence of `::` (greedy, left to
right), as Go's `strings.Split(s, "::")` does. -/
def splitDoubleColon : List Char → List (List Char)
  | [] => [[]]
  | ':' :: ':' :: rest => [] :: splitDoubleColon rest
  | c :: rest =>
      match splitDoubleColon rest with
      | [] => [[c]]
      | g :: gs => (c :: g) :: gs

/-- Modelled from the spec: success predicate of Go's `net.ParseIP` for IPv6
literals (simplified): colon-separated hex groups, at most one `::`
abbreviation, eight groups total (fewer than eight only with `::`), optional
trailing embedded IPv4. No verified statement below depends on its exact
acceptance set. -/
def ipv6ParseOK (cs : List Char) : Bool :=
  match splitDoubleColon cs with
  | [whole] =>
      (match ipv6Groups (splitOnChar ':' whole) with
       | some n => n == 8
       | none => false)
  | [l, r] =>
      (match ipv6Groups (if l = [] then [] else splitOnChar ':' l),
             ipv6Groups (if r = [] then [] else splitOnChar ':' r) with
       | some n, some m => n + m ≤ 7
       | _, _ => false)
  | _ => false

/-- Modelled from the spec: success predicate of Go's `net.ParseIP` — accepts
syntactically valid IPv4 or IPv6 literals. -/
def netParseIPOK (s : String) : Bool := ipv4ParseOK s.data || ipv6ParseOK s.data

/-- Percent escapes must be `%` followed by two hex digits. -/
def validPercentEscapes : List Char → Bool
  | [] => true
  | '%' :: a :: b :: rest => isHexDigitChar a && isHexDigitChar b && validPercentEscapes rest
  | '%' :: _ => false
  | _ :: rest => validPercentEscapes rest

/-- Modelled from the spec: success predicate of Go's `net/url.Parse`
(simplified): rejects ASCII control characters, malformed percent escapes, and
a URL that begins with `:` (missing protocol scheme); accepts everything else,
in particular the empty string. -/
def urlParseOK (s : String) : Bool :=
  s.data.all (fun c => !(c.toNat < 32 || c.toNat == 127)) &&
    validPercentEscapes s.data &&
    (match s.data with
     | ':' :: _ => false
     | _ => true)

/-! ### Condition builders

Each builder mirrors one `addXxxCondition` function of the source: coerce the
configuration value (string becomes a one-element array, anything that is not
a string or array is a shape error), validate every element left to right
aborting on the first failure, then append the condition's fragment (an
allow-list assignment plus the membership check) to the body passed in. -/

/-- The per-element validation loop shared by all six builders: validate each
element in order, short-circuiting on the first error, collecting the
canonical string values. -/
def validateElems (f : PValue → Except String String) :
    List PValue → Except String (List String)
  | [] => .ok []
  | v :: rest =>
      match f v with
      | .error e => .error e
      | .ok s =>
          match validateElems f rest with
          | .error e => .error e
          | .ok ss => .ok (s :: ss)

/-- The two statements appended by `addCertFingerprintCondition`. -/
def fingerprintFragment (vals : List String) : List Stmt :=
  [.assign (.varTerm "allowed_fingerprints") (.arrayTerm vals),
   .equal (.varTerm "fingerprint") (.varTerm "allowed_fingerprints[_]")]

/-- Function `addCertFingerprintCondition` from the source. -/
def addCertFingerprintCondition (body : List Stmt) (data : PValue) :
    Except String (List Stmt) :=
  match data with
  | .arr pa => (validateElems canonicalCertFingerprint pa).map
      (fun vals => body ++ fingerprintFragment vals)
  | .str s => (validateElems canonicalCertFingerprint [.str s]).map
      (fun vals => body ++ fingerprintFragment vals)
  | _ => .error "certificate fingerprint condition expects a string or array of strings"

/-- Per-element validation of `addCertSPKIHashCondition`: must be a string,
nonempty, and base64-decode to exactly 32 bytes; the accepted string is kept
verbatim. -/
def spkiHashElem (v : PValue) : Except String String :=
  match v with
  | .str s =>
      if s = "" then .error "certificate SPKI hash must not be empty"
      else if (match base64StdDecode s with
               | some bs => bs.length == 32
               | none => false) then .ok s
      else .error ("certificate SPKI hash must be a base64-encoded SHA-256 hash (was " ++ s ++ ")")
  | _ => .error ("certificate SPKI hash must be a string (was " ++ pvalueRender v ++ ")")

/-- The two statements appended by `addCertSPKIHashCondition`. -/
def spkiHashFragment (vals : List String) : List Stmt :=
  [.assign (.varTerm "allowed_spki_hashes") (.arrayTerm vals),
   .equal (.varTerm "spki_hash") (.varTerm "allowed_spki_hashes[_]")]

/-- Function `addCertSPKIHashCondition` from the source. -/
def addCertSPKIHashCondition (body : List Stmt) (data : PValue) :
    Except String (List Stmt) :=
  match data with
  | .arr pa => (validateElems spkiHashElem pa).map
      (fun vals => body ++ spkiHashFragment vals)
  | .str s => (validateElems spkiHashElem [.str s]).map
      (fun vals => body ++ spkiHashFragment vals)
  | _ => .error "certificate SPKI hash condition expects a string or array of strings"

/-- Per-element validation of `addSanEmailCondition`: must be a string that
`mail.ParseAddress` accepts; kept verbatim. -/
def sanEmailElem (v : PValue) : Except String String :=
  match v with
  | .str s =>
      if mailParseOK s then .ok s
      else .error ("certificate SAN email must be a valid email address (was " ++ s ++ ")")
  | _ => .error ("certificate SAN email must be a string (was " ++ pvalueRender v ++ ")")

/-- The two statements appended by `addSanEmailCondition`. -/
def sanEmailFragment (vals : List String) : List Stmt :=
  [.assign (.varTerm "allowed_san_emails") (.arrayTerm vals),
   .equal (.varTerm "allowed_san_emails[_]") (.varTerm "san_email_addresses[_]")]

/-- Function `addSanEmailCondition` from the source. -/
def addSanEmailCondition (body : List Stmt) (data : PValue) :
    Except String (List Stmt) :=
  match data with
  | .arr pa => (validateElems sanEmailElem pa).map
      (fun vals => body ++ sanEmailFragment vals)
  | .str s => (validateElems sanEmailElem [.str s]).map
      (fun vals => body ++ sanEmailFragment vals)
  | _ => .error "certificate SAN email condition expects a string or array of strings"

/-- Per-element validation of `addSanDNSCondition`: must be a string matching
the DNS-name pattern; kept verbatim. -/
def sanDNSElem (v : PValue) : Except String String :=
  match v with
  | .str s =>
      if dnsNameMatch s then .ok s
      else .error ("certificate SAN dns must be a valid DNS name (was " ++ s ++ ")")
  | _ => .error ("certificate SAN dns must be a string (was " ++ pvalueRender v ++ ")")

/-- The two statements appended by `addSanDNSCondition`. -/
def sanDNSFragment (vals : List String) : List Stmt :=
  [.assign (.varTerm "allowed_san_dns_names") (.arrayTerm vals),
   .equal (.varTerm "allowed_san_dns_names[_]") (.varTerm "san_dns_names[_]")]

/-- Function `addSanDNSCondition` from the source. -/
def addSanDNSCondition (body : List Stmt) (data : PValue) :
    Except String (List Stmt) :=
  match data with
  | .arr pa => (validateElems sanDNSElem pa).map
      (fun vals => body ++ sanDNSFragment vals)
  | .str s => (validateElems sanDNSElem [.str s]).map
      (fun vals => body ++ sanDNSFragment vals)
  | _ => .error "certificate SAN dns condition expects a string or array of strings"

/-- Per-element validation of `addSanIPCondition`: must be a string that
`net.ParseIP` accepts; kept verbatim. -/
def sanIPElem (v : PValue) : Except String String :=
  match v with
  | .str s =>
      if netParseIPOK s then .ok s
      else .error ("certificate SAN IP must be a valid IP address (was " ++ s ++ ")")
  | _ => .error ("certificate SAN IP must be a string (was " ++ pvalueRender v ++ ")")

/-- The two statements appended by `addSanIPCondition`. -/
def sanIPFragment (vals : List String) : List Stmt :=
  [.assign (.varTerm "allowed_san_ip_addresses") (.arrayTerm vals),
   .equal (.varTerm "allowed_san_ip_addresses[_]") (.varTerm "san_ip_addresses[_]")]

/-- Function `addSanIPCondition` from the source. -/
def addSanIPCondition (body : List Stmt) (data : PValue) :
    Except String (List Stmt) :=
  match data with
  | .arr pa => (validateElems sanIPElem pa).map
      (fun vals => body ++ sanIPFragment vals)
  | .str s => (validateElems sanIPElem [.str s]).map
      (fun vals => body ++ sanIPFragment vals)
  | _ => .error "certificate SAN IP condition expects a string or array of strings"

/-- Per-element validation of `addSanURICondition`: must be a string that
`url.Parse` accepts; kept verbatim. There is no emptiness check. -/
def sanURIElem (v : PValue) : Except String String :=
  match v with
  | .str s =>
      if urlParseOK s then .ok s
      else .error ("certificate SAN URI must be a valid URI (was " ++ s ++ ")")
  | _ => .error ("certificate URI must be a string (was " ++ pvalueRender v ++ ")")

/-- The three statements appended by `addSanURICondition`: the allow-list
assignment followed by the parsed check body
`some san_uri_index;
 sprintf("%s://%s%s", [san_uris[san_uri_index].Scheme,
   san_uris[san_uri_index].Host, san_uris[san_uri_index].Path])
   == allowed_san_uris[_]`. -/
def sanURIFragment (vals : List String) : List Stmt :=
  [.assign (.varTerm "allowed_san_uris") (.arrayTerm vals),
   .someDecl "san_uri_index",
   .sprintfURIEq "san_uris" "san_uri_index" "allowed_san_uris"]

/-- Function `addSanURICondition` from the source. -/
def addSanURICondition (body : List Stmt) (data : PValue) :
    Except String (List Stmt) :=
  match data with
  | .arr pa => (validateElems sanURIElem pa).map
      (fun vals => body ++ sanURIFragment vals)
  | .str s => (validateElems sanURIElem [.str s]).map
      (fun vals => body ++ sanURIFragment vals)
  | _ => .error "certificate SAN URI condition expects a string or array of strings"

/-! ### The criterion's compile entry point -/

/-- A compiled criterion rule: the criterion name, the fixed success/failure
reason codes, and the generated body. -/
structure Rule where
  name : String
  reasonOK : String
  reasonUnauthorized : String
  body : List Stmt
deriving DecidableEq, Repr

/-- Modelled from the spec: the fixed success reason code
`ReasonClientCertificateOK` (an opaque diagnostic tag, not in the sources
here). -/
def reasonClientCertificateOK : String := "client-certificate-ok"

/-- Modelled from the spec: the fixed failure reason code
`ReasonClientCertificateUnauthorized`. -/
def reasonClientCertificateUnauthorized : String := "client-certificate-unauthorized"

/-- Modelled from the spec (section 4.4 step 5): `NewCriterionRule` wraps the
finished body together with the criterion's name and its fixed reason codes
into a rule object. -/
def newCriterionRule (name reasonOK reasonFail : String) (body : List Stmt) : Rule :=
  { name := name, reasonOK := reasonOK, reasonUnauthorized := reasonFail, body := body }

/-- The `switch k` dispatch inside `GenerateRule`'s loop: route each key of
the configuration object to its condition builder; an unknown key is an
error naming it. -/
def dispatchCondition (body : List Stmt) (k : String) (v : PValue) :
    Except String (List Stmt) :=
  if k = "fingerprint" then addCertFingerprintCondition body v
  else if k = "spki_hash" then addCertSPKIHashCondition body v
  else if k = "email" then addSanEmailCondition body v
  else if k = "dns" then addSanDNSCondition body v
  else if k = "ip" then addSanIPCondition body v
  else if k = "uri" then addSanURICondition body v
  else .error ("unsupported certificate matcher condition: " ++ k)

/-- The `for k, v := range obj` loop of `GenerateRule`: process the object's
entries in order, threading the body, returning the first error. -/
def buildConditions (body : List Stmt) : List (String × PValue) → Except String (List Stmt)
  | [] => .ok body
  | (k, v) :: rest =>
      match dispatchCondition body k v with
      | .error e => .error e
      | .ok body2 => buildConditions body2 rest

/-- Method `clientCertificateCriterion.GenerateRule` from the source: require an
object, start from a fresh copy of the prologue, dispatch every key, and wrap
the finished body with the criterion name and reason codes. The auxiliary
rule list is always empty. -/
def generateRule (data : PValue) : Except String (Rule × List Rule) :=
  match data with
  | .obj fields =>
      match buildConditions clientCertificateBaseBody fields with
      | .error e => .error e
      | .ok body =>
          .ok (newCriterionRule "client_certificate" reasonClientCertificateOK
                reasonClientCertificateUnauthorized body, [])
  | _ => .error ("expected object for certificate matcher, got: " ++ goTypeName data)

/-- Returns `true` exactly on an `Except.ok` result. -/
def isOkE {ε α : Type} : Except ε α → Bool
  | .ok _ => true
  | .error _ => false

/-- Returns `true` exactly on an `Except.error` result. -/
def isErrE {ε α : Type} : Except ε α → Bool
  | .ok _ => false
  | .error _ => true

/-- The body of a successfully generated rule (empty list on error). -/
def ruleBodyOf : Except String (Rule × List Rule) → List Stmt
  | .ok (r, _) => r.body
  | .error _ => []

/-! ### Evaluation-time semantics of the generated constraints

A small model of how the evaluation engine reads the generated fragments: the
runtime facts derived by the prologue from the client certificate, an
environment of allow-list bindings built up by the assignments, and a
satisfaction relation for the constraint statements. -/

/-- A certificate SAN URI as the evaluation engine exposes it: the structured
fields of a parsed URI. The generated check reads only `Scheme`, `Host` and
`Path`. -/
structure URIRecord where
  scheme : String
  host : String
  path : String
  query : String
  fragment : String
deriving DecidableEq, Repr

/-- The reconstruction the generated rule performs on a certificate SAN URI:
`sprintf("%s://%s%s", [u.Scheme, u.Host, u.Path])` — scheme, `://`, host,
path; the URI's query and fragment are not read. -/
def reconstructURI (u : URIRecord) : String :=
  u.scheme ++ "://" ++ u.host ++ u.path

/-- Runtime facts derived by the prologue from the presented certificate. -/
structure CertFacts where
  fingerprint : String
  spkiHash : String
  sanEmailAddresses : List String
  sanDNSNames : List String
  sanIPAddresses : List String
  sanURIs : List URIRecord

/-- Strip a literal `[_]` wildcard suffix from a variable name, if present. -/
def stripWildcard (n : String) : Option String :=
  match n.data.reverse with
  | ']' :: '_' :: '[' :: rest => some (String.mk rest.reverse)
  | _ => none

/-- The base variable name a possibly-wildcarded name refers to. -/
def baseName (n : String) : String :=
  match stripWildcard n with
  | some b => b
  | none => n

/-- Look up an allow-list binding by name (most recent first). -/
def lookupBind (binds : List (String × List String)) (n : String) : Option (List String) :=
  match binds with
  | [] => none
  | (m, vs) :: rest => if m = n then some vs else lookupBind rest n

/-- The scalar facts the generated equality constraints read. -/
def factScalarVal (f : CertFacts) (n : String) : Option String :=
  if n = "fingerprint" then some f.fingerprint
  else if n = "spki_hash" then some f.spkiHash
  else none

/-- The string-sequence facts the generated membership constraints read. -/
def factListVal (f : CertFacts) (n : String) : Option (List String) :=
  if n = "san_email_addresses" then some f.sanEmailAddresses
  else if n = "san_dns_names" then some f.sanDNSNames
  else if n = "san_ip_addresses" then some f.sanIPAddresses
  else none

/-- The set of string values a term can take: a wildcarded name ranges over
the elements of its allow-list binding (or sequence fact), a plain name is the
scalar fact's single value, an array literal is its elements. -/
def termVals (f : CertFacts) (binds : List (String × List String)) :
    AstTerm → Option (List String)
  | .varTerm n =>
      match stripWildcard n with
      | some b =>
          (match lookupBind binds b with
           | some vs => some vs
           | none => factListVal f b)
      | none => (factScalarVal f n).map (fun v => [v])
  | .arrayTerm vs => some vs

/-- Satisfaction of an equality constraint: both sides denote and share a
common value (wildcards are existential). -/
def eqSat (f : CertFacts) (binds : List (String × List String))
    (a b : AstTerm) : Prop :=
  ∃ va vb, termVals f binds a = some va ∧ termVals f binds b = some vb ∧
    ∃ x, x ∈ va ∧ x ∈ vb

/-- Satisfaction of the URI check: some certificate SAN URI, reconstructed as
scheme `://` host path, equals some element of the allow-list binding. -/
def uriSat (f : CertFacts) (binds : List (String × List String))
    (coll allow : String) : Prop :=
  coll = "san_uris" ∧
    ∃ al, lookupBind binds allow = some al ∧
      ∃ u, u ∈ f.sanURIs ∧ reconstructURI u ∈ al

/-- Satisfaction of a statement list: assignments extend the environment,
`some` declarations and prologue fact derivations pass through, constraints
must hold. -/
def bodySat (f : CertFacts) : List (String × List String) → List Stmt → Prop
  | _, [] => True
  | binds, .factDerivation _ _ :: rest => bodySat f binds rest
  | binds, .someDecl _ :: rest => bodySat f binds rest
  | binds, .assign (.varTerm n) (.arrayTerm vs) :: rest =>
      bodySat f ((n, vs) :: binds) rest
  | binds, .assign _ _ :: rest => bodySat f binds rest
  | binds, .equal a b :: rest => eqSat f binds a b ∧ bodySat f binds rest
  | binds, .sprintfURIEq coll _ allow :: rest =>
      uriSat f binds coll allow ∧ bodySat f binds rest

/-! ### Variable-binding discipline of generated bodies -/

/-- The fixed fact names produced by the prologue that generated constraints
may reference. -/
def prologueFactNames : List String :=
  ["fingerprint", "spki_hash", "san_email_addresses", "san_dns_names",
   "san_ip_addresses", "san_uris"]

/-- Whether a statement is a Constraint (an assertion rather than a binding or
derivation). -/
def stmtIsConstraint : Stmt → Bool
  | .equal _ _ => true
  | .sprintfURIEq _ _ _ => true
  | _ => false

/-- The base variable names a constraint references. -/
def stmtRefs : Stmt → List String
  | .equal a b => termRefs a ++ termRefs b
  | .sprintfURIEq coll idx allow => [coll, idx, allow]
  | _ => []
where
  termRefs : AstTerm → List String
  | .varTerm n => [baseName n]
  | .arrayTerm _ => []

/-- The variable names a statement binds, counting assignments and `some`
declarations (and the prologue's own fact derivations). -/
def stmtBinds : Stmt → List String
  | .factDerivation lhs _ => [lhs]
  | .assign (.varTerm n) _ => [baseName n]
  | .assign _ _ => []
  | .someDecl v => [v]
  | _ => []

/-- The variable names a statement binds through an Assignment only (`:=`),
as the spec's binding invariant is phrased: `some` declarations and prologue
fact derivations are not Assignments emitted by a condition builder. -/
def stmtAssignBinds : Stmt → List String
  | .assign (.varTerm n) _ => [baseName n]
  | _ => []

/-- Check that every constraint in the list only references names bound by an
earlier binding statement (assignment or `some` declaration) or one of the
prologue's fact names; `bound` accumulates the names bound so far. -/
def wellBoundFrom (bound : List String) : List Stmt → Bool
  | [] => true
  | st :: rest =>
      (!stmtIsConstraint st ||
        (stmtRefs st).all (fun r => bound.contains r || prologueFactNames.contains r)) &&
      wellBoundFrom (bound ++ stmtBinds st) rest

/-- The strict variant matching the spec's wording literally: a constraint may
only reference names bound by an earlier Assignment (`:=`) or one of the
prologue's fixed fact names — `some` declarations do not count as
Assignments. -/
def wellBoundAssignOnlyFrom (bound : List String) : List Stmt → Bool
  | [] => true
  | st :: rest =>
      (!stmtIsConstraint st ||
        (stmtRefs st).all (fun r => bound.contains r || prologueFactNames.contains r)) &&
      wellBoundAssignOnlyFrom (bound ++ stmtAssignBinds st) rest

/-- Whether a configuration value is a string or an array — the shapes a
condition builder's coercion step accepts. -/
def isStrOrArr : PValue → Bool
  | .str _ => true
  | .arr _ => true
  | _ => false

/-- Whether a configuration value is an object — the shape `GenerateRule`
requires. -/
def isObjV : PValue → Bool
  | .obj _ => true
  | _ => false

/-- The condition keys `GenerateRule`'s switch supports. -/
def supportedKeys : List String :=
  ["fingerprint", "spki_hash", "email", "dns", "ip", "uri"]

/-- Statement that `msg` mentions `v`: `v` occurs verbatim as a substring of `msg`. -/
def mentionsStr (msg v : String) : Prop :=
  ∃ pre post, msg = pre ++ v ++ post

/-- The statements of a successful builder or dispatch result (empty on
error). -/
def okStmts : Except String (List Stmt) → List Stmt
  | .ok l => l
  | .error _ => []

/-- Modelled from the spec: `parser.Object` is a Go map, and `GenerateRule`
iterates it with `for k, v := range obj`. Go leaves the iteration order of a
map range statement unspecified — it may differ between two calls on the very
same map. A possible outcome of one compile call on an object is therefore
the result of `generateRule` on some permutation of the object's entry list
(the order in which that call's range statement happened to visit the
entries). -/
def generateRuleOutcome (fields : List (String × PValue))
    (res : Except String (Rule × List Rule)) : Prop :=
  ∃ visited : List (String × PValue),
    List.Perm fields visited ∧ generateRule (.obj visited) = res

/-! ### Helper lemmas: characters and the fingerprint grammar -/

theorem toNat_ofNat_valid (n : Nat) (h : n.isValidChar) : (Char.ofNat n).toNat = n := by
  unfold Char.ofNat
  rw [dif_pos h]
  rfl

theorem isLowerHexChar_asciiToLower {c : Char} (h : isUpperHexChar c = true) :
    isLowerHexChar (asciiToLower c) = true := by
  simp only [isUpperHexChar, Bool.or_eq_true, Bool.and_eq_true, decide_eq_true_eq] at h
  unfold asciiToLower
  rcases h with ⟨h1, h2⟩ | ⟨h1, h2⟩
  · rw [if_neg (by omega)]
    simp only [isLowerHexChar, Bool.or_eq_true, Bool.and_eq_true, decide_eq_true_eq]
    omega
  · rw [if_pos (by omega)]
    have hv : (c.toNat + 32).isValidChar := Or.inl (by omega)
    simp only [isLowerHexChar, Bool.or_eq_true, Bool.and_eq_true, decide_eq_true_eq,
      toNat_ofNat_valid _ hv]
    omega

theorem upperHex_ne_colon {c : Char} (h : isUpperHexChar c = true) : c ≠ ':' := by
  intro hc
  subst hc
  exact absurd h (by decide)

theorem longFingerprintPairs_props (n : Nat) :
    ∀ cs, longFingerprintPairs n cs = true →
      cs.length = 3 * n ∧
      ((cs.filter (fun c => c ≠ ':')).map asciiToLower).length = 2 * n ∧
      ((cs.filter (fun c => c ≠ ':')).map asciiToLower).all isLowerHexChar = true := by
  induction n with
  | zero =>
      intro cs h
      cases cs with
      | nil => simp
      | cons c rest => simp [longFingerprintPairs] at h
  | succ n ih =>
      intro cs h
      match cs with
      | [] => simp [longFingerprintPairs] at h
      | [c] => simp [longFingerprintPairs] at h
      | [c, a] => simp [longFingerprintPairs] at h
      | c :: a :: b :: rest =>
          simp only [longFingerprintPairs, Bool.and_eq_true, decide_eq_true_eq] at h
          obtain ⟨⟨⟨hc, ha⟩, hb⟩, hrest⟩ := h
          subst hc
          obtain ⟨ihl, ihm, iha⟩ := ih rest hrest
          have ha' : a ≠ ':' := upperHex_ne_colon ha
          have hb' : b ≠ ':' := upperHex_ne_colon hb
          have hfil : (':' :: a :: b :: rest).filter (fun c => c ≠ ':') =
              a :: b :: rest.filter (fun c => c ≠ ':') := by
            simp [List.filter_cons, ha', hb']
          refine ⟨?_, ?_, ?_⟩
          · simp only [List.length_cons]
            omega
          · rw [hfil]
            simp only [List.map_cons, List.length_cons]
            omega
          · rw [hfil]
            simp only [List.map_cons, List.all_cons, Bool.and_eq_true]
            exact ⟨isLowerHexChar_asciiToLower ha,
              isLowerHexChar_asciiToLower hb, iha⟩

theorem longCertFingerprintMatch_conv {s : String}
    (h : longCertFingerprintMatch s = true) :
    shortCertFingerprintMatch (stringsToLower (removeColons s)) = true ∧
    s.data.length = 95 := by
  obtain ⟨cs⟩ := s
  match cs with
  | [] => simp [longCertFingerprintMatch] at h
  | [a] => simp [longCertFingerprintMatch] at h
  | a :: b :: rest =>
      simp only [longCertFingerprintMatch, Bool.and_eq_true] at h
      obtain ⟨⟨ha, hb⟩, hrest⟩ := h
      obtain ⟨hl, hm, hall⟩ := longFingerprintPairs_props 31 rest hrest
      have ha' : a ≠ ':' := upperHex_ne_colon ha
      have hb' : b ≠ ':' := upperHex_ne_colon hb
      have hfil : (a :: b :: rest).filter (fun c => c ≠ ':') =
          a :: b :: rest.filter (fun c => c ≠ ':') := by
        simp [List.filter_cons, ha', hb']
      constructor
      · simp only [shortCertFingerprintMatch, stringsToLower, removeColons, hfil,
          List.map_cons, List.length_cons, List.all_cons, Bool.and_eq_true, beq_iff_eq]
        refine ⟨by omega, isLowerHexChar_asciiToLower ha,
          isLowerHexChar_asciiToLower hb, hall⟩
      · simp only [List.length_cons]
        omega

theorem shortCertFingerprintMatch_ne_empty {s : String}
    (h : shortCertFingerprintMatch s = true) : s ≠ "" := by
  intro he
  subst he
  exact absurd h (by decide)

theorem short_long_disjoint {s : String} (hl : longCertFingerprintMatch s = true) :
    shortCertFingerprintMatch s = false := by
  cases hs : shortCertFingerprintMatch s with
  | false => rfl
  | true =>
      exfalso
      have h64 : s.data.length = 64 := by
        simp only [shortCertFingerprintMatch, Bool.and_eq_true, beq_iff_eq] at hs
        exact hs.1
      have h95 := (longCertFingerprintMatch_conv hl).2
      omega

theorem longCertFingerprintMatch_ne_empty {s : String}
    (h : longCertFingerprintMatch s = true) : s ≠ "" := by
  intro he
  subst he
  exact absurd h (by decide)

theorem canonicalCertFingerprint_short {s : String}
    (h : shortCertFingerprintMatch s = true) :
    canonicalCertFingerprint (.str s) = .ok s := by
  simp only [canonicalCertFingerprint]
  rw [if_neg (shortCertFingerprintMatch_ne_empty h), if_pos h]

theorem canonicalCertFingerprint_long {s : String}
    (h : longCertFingerprintMatch s = true) :
    canonicalCertFingerprint (.str s) = .ok (stringsToLower (removeColons s)) := by
  simp only [canonicalCertFingerprint]
  rw [if_neg (longCertFingerprintMatch_ne_empty h),
    if_neg (by simp [short_long_disjoint h]), if_pos h]

theorem canonicalCertFingerprint_err {s : String}
    (h1 : shortCertFingerprintMatch s = false)
    (h2 : longCertFingerprintMatch s = false) :
    isErrE (canonicalCertFingerprint (.str s)) = true := by
  simp only [canonicalCertFingerprint]
  by_cases he : s = ""
  · rw [if_pos he]
    rfl
  · rw [if_neg he, if_neg (by simp [h1]), if_neg (by simp [h2])]
    rfl

/-- C3: fingerprint canonicalization returns a 64-character lowercase-hex
string exactly when the input matches the short (64 lowercase hex characters)
or long (32 colon-separated uppercase hex pairs) grammar; the short form
passes through unchanged (idempotence), the long form is converted by
removing colons and lowercasing (and the conversion canonicalizes to itself);
the empty string and every other input yield an error. -/
theorem c3_fingerprint_canonicalization (s : String) :
    ((∃ out, canonicalCertFingerprint (.str s) = .ok out ∧
        out.data.length = 64 ∧ out.data.all isLowerHexChar = true) ↔
      (shortCertFingerprintMatch s = true ∨ longCertFingerprintMatch s = true)) ∧
    (shortCertFingerprintMatch s = true →
      canonicalCertFingerprint (.str s) = .ok s) ∧
    (longCertFingerprintMatch s = true →
      canonicalCertFingerprint (.str s) = .ok (stringsToLower (removeColons s)) ∧
      canonicalCertFingerprint (.str (stringsToLower (removeColons s))) =
        .ok (stringsToLower (removeColons s))) ∧
    (s = "" → isErrE (canonicalCertFingerprint (.str s)) = true) ∧
    (shortCertFingerprintMatch s = false → longCertFingerprintMatch s = false →
      isErrE (canonicalCertFingerprint (.str s)) = true) := by
  refine ⟨?_, fun h => canonicalCertFingerprint_short h, ?_, ?_, canonicalCertFingerprint_err⟩
  · constructor
    · rintro ⟨out, hok, h64, hall⟩
      by_cases h1 : shortCertFingerprintMatch s = true
      · exact Or.inl h1
      · by_cases h2 : longCertFingerprintMatch s = true
        · exact Or.inr h2
        · have := canonicalCertFingerprint_err (by simpa using h1) (by simpa using h2)
          rw [hok] at this
          exact absurd this (by simp [isErrE])
    · rintro (h | h)
      · refine ⟨s, canonicalCertFingerprint_short h, ?_, ?_⟩
        · simp only [shortCertFingerprintMatch, Bool.and_eq_true, beq_iff_eq] at h
          exact h.1
        · simp only [shortCertFingerprintMatch, Bool.and_eq_true, beq_iff_eq] at h
          exact h.2
      · obtain ⟨hm, _⟩ := longCertFingerprintMatch_conv h
        refine ⟨stringsToLower (removeColons s), canonicalCertFingerprint_long h, ?_, ?_⟩
        · simp only [shortCertFingerprintMatch, Bool.and_eq_true, beq_iff_eq] at hm
          exact hm.1
        · simp only [shortCertFingerprintMatch, Bool.and_eq_true, beq_iff_eq] at hm
          exact hm.2
  · intro h
    exact ⟨canonicalCertFingerprint_long h,
      canonicalCertFingerprint_short (longCertFingerprintMatch_conv h).1⟩
  · intro he
    subst he
    rfl

theorem c3_fingerprint_canonicalization_witness :
    canonicalCertFingerprint
        (.str "AB:AB:AB:AB:AB:AB:AB:AB:AB:AB:AB:AB:AB:AB:AB:AB:AB:AB:AB:AB:AB:AB:AB:AB:AB:AB:AB:AB:AB:AB:AB:AB") =
      .ok "abababababababababababababababababababababababababababababababab" ∧
    canonicalCertFingerprint
        (.str "abababababababababababababababababababababababababababababababab") =
      .ok "abababababababababababababababababababababababababababababababab" := by
  have h := (c3_fingerprint_canonicalization
    "AB:AB:AB:AB:AB:AB:AB:AB:AB:AB:AB:AB:AB:AB:AB:AB:AB:AB:AB:AB:AB:AB:AB:AB:AB:AB:AB:AB:AB:AB:AB:AB").2.2.1 (by decide)
  have e : stringsToLower (removeColons
      "AB:AB:AB:AB:AB:AB:AB:AB:AB:AB:AB:AB:AB:AB:AB:AB:AB:AB:AB:AB:AB:AB:AB:AB:AB:AB:AB:AB:AB:AB:AB:AB") =
      "abababababababababababababababababababababababababababababababab" := by decide
  exact ⟨e ▸ h.1, e ▸ h.2⟩

/-! ### Helper lemmas: Except results and the validation loop -/

theorem isOkE_map {g : List String → List Stmt} (e : Except String (List String)) :
    isOkE (e.map g) = isOkE e := by
  cases e <;> rfl

theorem except_map_ok {g : List String → List Stmt} {e : Except String (List String)}
    {y : List Stmt} (h : e.map g = .ok y) : ∃ x, e = .ok x ∧ y = g x := by
  cases e with
  | error err => simp [Except.map] at h
  | ok x =>
      refine ⟨x, rfl, ?_⟩
      simpa [Except.map] using h.symm

theorem except_map_error {g : List String → List Stmt} {e : Except String (List String)}
    {err : String} : e.map g = .error err ↔ e = .error err := by
  cases e <;> simp [Except.map]

theorem validateElems_ok_verbatim (f : PValue → Except String String) :
    ∀ ss : List String, (∀ s ∈ ss, f (.str s) = .ok s) →
      validateElems f (ss.map PValue.str) = .ok ss
  | [], _ => rfl
  | s :: rest, h => by
      simp only [List.map_cons, validateElems]
      rw [h s (List.mem_cons_self s rest), validateElems_ok_verbatim f rest
        (fun t ht => h t (List.mem_cons_of_mem s ht))]

theorem isOkE_validateElems (f : PValue → Except String String) :
    ∀ xs : List PValue, isOkE (validateElems f xs) = xs.all (fun x => isOkE (f x))
  | [] => rfl
  | x :: rest => by
      have ih := isOkE_validateElems f rest
      simp only [validateElems, List.all_cons]
      cases hf : f x with
      | error e => simp [isOkE]
      | ok s =>
          cases hr : validateElems f rest with
          | error e =>
              rw [hr] at ih
              rw [← ih]
              simp [isOkE]
          | ok ss =>
              rw [hr] at ih
              rw [← ih]
              simp [isOkE]

theorem validateElems_first_error (f : PValue → Except String String) :
    ∀ (pre : List String) (bad : PValue) (rest : List PValue) (e : String),
      (∀ t ∈ pre, isErrE (f (.str t)) = false) → f bad = .error e →
      validateElems f (pre.map PValue.str ++ bad :: rest) = .error e
  | [], bad, rest, e, _, hbad => by
      simp [validateElems, hbad]
  | s :: pre, bad, rest, e, h, hbad => by
      simp only [List.map_cons, List.cons_append, validateElems]
      have hs := h s (List.mem_cons_self s pre)
      cases hf : f (.str s) with
      | error e2 => rw [hf] at hs; simp [isErrE] at hs
      | ok u =>
          have hrec := validateElems_first_error f pre bad rest e
            (fun t ht => h t (List.mem_cons_of_mem s ht)) hbad
          simp only [List.append_eq] at hrec ⊢
          rw [hrec]

/-! ### C4: SPKI hash acceptance -/

theorem isOkE_spkiHashElem (s : String) : isOkE (spkiHashElem (.str s)) = spkiHashOK s := by
  simp only [spkiHashElem, spkiHashOK]
  by_cases he : s = ""
  · subst he
    simp [isOkE]
  · rw [if_neg he]
    cases hd : base64StdDecode s with
    | none => simp [he, hd, isOkE]
    | some bs =>
        by_cases hl : bs.length == 32
        · simp [he, hd, hl, isOkE]
        · simp [he, hd, hl, isOkE]

theorem all_map_str (ss : List String) (p : PValue → Bool) :
    (ss.map PValue.str).all p = ss.all (fun s => p (PValue.str s)) := by
  induction ss with
  | nil => rfl
  | cons s rest ih => simp [List.all_cons, ih]

theorem spkiHashElem_ok {s : String} (h : spkiHashOK s = true) :
    spkiHashElem (.str s) = .ok s := by
  simp only [spkiHashOK, Bool.and_eq_true, decide_eq_true_eq] at h
  obtain ⟨hne, hdec⟩ := h
  simp only [spkiHashElem]
  rw [if_neg hne, if_pos hdec]

/-- C4: an element of an `spki_hash` condition is accepted, and placed
verbatim into the allow-list, exactly when it is a nonempty string that
base64-decodes to exactly 32 bytes; any other element makes the builder
return an error. -/
theorem c4_spki_hash_acceptance (body : List Stmt) (ss : List String) :
    isOkE (addCertSPKIHashCondition body (.arr (ss.map PValue.str))) = ss.all spkiHashOK ∧
    (ss.all spkiHashOK = true →
      addCertSPKIHashCondition body (.arr (ss.map PValue.str)) =
        .ok (body ++ spkiHashFragment ss)) := by
  constructor
  · simp only [addCertSPKIHashCondition]
    rw [isOkE_map, isOkE_validateElems, all_map_str]
    have : (fun s => isOkE (spkiHashElem (PValue.str s))) = spkiHashOK := by
      funext s
      exact isOkE_spkiHashElem s
    rw [this]
  · intro h
    simp only [List.all_eq_true] at h
    simp only [addCertSPKIHashCondition]
    rw [validateElems_ok_verbatim spkiHashElem ss
      (fun s hs => spkiHashElem_ok (h s hs))]
    rfl

theorem c4_spki_hash_acceptance_witness :
    addCertSPKIHashCondition [] (.arr [PValue.str "AAAAAAAAAAAAAAAAAAAAAAAAAAAAAAAAAAAAAAAAAAA="]) =
      .ok ([] ++ spkiHashFragment ["AAAAAAAAAAAAAAAAAAAAAAAAAAAAAAAAAAAAAAAAAAA="]) ∧
    isOkE (addCertSPKIHashCondition [] (.arr [PValue.str "AAAAAAAAAAAAAAAAAAAAAAAAAAAAAAAAAAAAAAAAAA=="])) = false ∧
    isOkE (addCertSPKIHashCondition [] (.arr [PValue.str "AAAAAAAAAAAAAAAAAAAAAAAAAAAAAAAAAAAAAAAAAAAA"])) = false :=
  ⟨(c4_spki_hash_acceptance [] ["AAAAAAAAAAAAAAAAAAAAAAAAAAAAAAAAAAAAAAAAAAA="]).2 (by decide),
   ((c4_spki_hash_acceptance [] ["AAAAAAAAAAAAAAAAAAAAAAAAAAAAAAAAAAAAAAAAAA=="]).1).trans (by decide),
   ((c4_spki_hash_acceptance [] ["AAAAAAAAAAAAAAAAAAAAAAAAAAAAAAAAAAAAAAAAAAAA"]).1).trans (by decide)⟩

/-! ### C7: bare string vs one-element sequence, and shape errors -/

/-- C7: for every condition kind, building from a bare string produces
exactly the same result as building from the one-element sequence holding
that string; and a value that is neither a string nor a sequence is a
compile error for every condition kind. -/
theorem c7_scalar_array_equivalence (body : List Stmt) (s : String) (w : PValue)
    (hw : isStrOrArr w = false) :
    (addCertFingerprintCondition body (.str s) =
        addCertFingerprintCondition body (.arr [.str s]) ∧
      addCertSPKIHashCondition body (.str s) =
        addCertSPKIHashCondition body (.arr [.str s]) ∧
      addSanEmailCondition body (.str s) = addSanEmailCondition body (.arr [.str s]) ∧
      addSanDNSCondition body (.str s) = addSanDNSCondition body (.arr [.str s]) ∧
      addSanIPCondition body (.str s) = addSanIPCondition body (.arr [.str s]) ∧
      addSanURICondition body (.str s) = addSanURICondition body (.arr [.str s])) ∧
    (isErrE (addCertFingerprintCondition body w) = true ∧
      isErrE (addCertSPKIHashCondition body w) = true ∧
      isErrE (addSanEmailCondition body w) = true ∧
      isErrE (addSanDNSCondition body w) = true ∧
      isErrE (addSanIPCondition body w) = true ∧
      isErrE (addSanURICondition body w) = true) := by
  refine ⟨⟨rfl, rfl, rfl, rfl, rfl, rfl⟩, ?_⟩
  cases w with
  | str _ => exact absurd hw (by simp [isStrOrArr])
  | arr _ => exact absurd hw (by simp [isStrOrArr])
  | obj _ => exact ⟨rfl, rfl, rfl, rfl, rfl, rfl⟩
  | bool _ => exact ⟨rfl, rfl, rfl, rfl, rfl, rfl⟩
  | null => exact ⟨rfl, rfl, rfl, rfl, rfl, rfl⟩
  | num _ => exact ⟨rfl, rfl, rfl, rfl, rfl, rfl⟩

theorem c7_scalar_array_equivalence_witness :
    addSanEmailCondition [] (.str "a@example.com") =
      addSanEmailCondition [] (.arr [.str "a@example.com"]) ∧
    isErrE (addSanEmailCondition [] .null) = true :=
  ⟨(c7_scalar_array_equivalence [] "a@example.com" .null rfl).1.2.2.1,
   (c7_scalar_array_equivalence [] "a@example.com" .null rfl).2.2.2.1⟩

/-! ### C9: empty sequences compile to never-satisfiable conditions -/

theorem stripWildcard_fact_fingerprint : stripWildcard "fingerprint" = none := by decide

theorem stripWildcard_fact_spki : stripWildcard "spki_hash" = none := by decide

theorem stripWildcard_allowed_fingerprints :
    stripWildcard "allowed_fingerprints[_]" = some "allowed_fingerprints" := by decide

theorem stripWildcard_allowed_spki :
    stripWildcard "allowed_spki_hashes[_]" = some "allowed_spki_hashes" := by decide

theorem stripWildcard_allowed_emails :
    stripWildcard "allowed_san_emails[_]" = some "allowed_san_emails" := by decide

theorem stripWildcard_fact_emails :
    stripWildcard "san_email_addresses[_]" = some "san_email_addresses" := by decide

theorem stripWildcard_allowed_dns :
    stripWildcard "allowed_san_dns_names[_]" = some "allowed_san_dns_names" := by decide

theorem stripWildcard_fact_dns :
    stripWildcard "san_dns_names[_]" = some "san_dns_names" := by decide

theorem stripWildcard_allowed_ips :
    stripWildcard "allowed_san_ip_addresses[_]" = some "allowed_san_ip_addresses" := by decide

theorem stripWildcard_fact_ips :
    stripWildcard "san_ip_addresses[_]" = some "san_ip_addresses" := by decide

/-- C9: for every condition kind, an empty sequence is not a compile error:
the builder succeeds, emitting the allow-list assignment bound to an empty
sequence followed by the usual constraint — and that fragment can never be
satisfied at evaluation time, for any certificate facts. -/
theorem c9_empty_sequence_always_deny (body : List Stmt) (f : CertFacts) :
    (addCertFingerprintCondition body (.arr []) = .ok (body ++ fingerprintFragment []) ∧
      ¬ bodySat f [] (fingerprintFragment [])) ∧
    (addCertSPKIHashCondition body (.arr []) = .ok (body ++ spkiHashFragment []) ∧
      ¬ bodySat f [] (spkiHashFragment [])) ∧
    (addSanEmailCondition body (.arr []) = .ok (body ++ sanEmailFragment []) ∧
      ¬ bodySat f [] (sanEmailFragment [])) ∧
    (addSanDNSCondition body (.arr []) = .ok (body ++ sanDNSFragment []) ∧
      ¬ bodySat f [] (sanDNSFragment [])) ∧
    (addSanIPCondition body (.arr []) = .ok (body ++ sanIPFragment []) ∧
      ¬ bodySat f [] (sanIPFragment [])) ∧
    (addSanURICondition body (.arr []) = .ok (body ++ sanURIFragment []) ∧
      ¬ bodySat f [] (sanURIFragment [])) := by
  refine ⟨⟨rfl, ?_⟩, ⟨rfl, ?_⟩, ⟨rfl, ?_⟩, ⟨rfl, ?_⟩, ⟨rfl, ?_⟩, ⟨rfl, ?_⟩⟩
  · simp [fingerprintFragment, bodySat, eqSat, termVals, stripWildcard_fact_fingerprint,
      stripWildcard_allowed_fingerprints, lookupBind, factScalarVal]
  · simp [spkiHashFragment, bodySat, eqSat, termVals, stripWildcard_fact_spki,
      stripWildcard_allowed_spki, lookupBind, factScalarVal]
  · simp [sanEmailFragment, bodySat, eqSat, termVals, stripWildcard_allowed_emails,
      stripWildcard_fact_emails, lookupBind, factListVal]
  · simp [sanDNSFragment, bodySat, eqSat, termVals, stripWildcard_allowed_dns,
      stripWildcard_fact_dns, lookupBind, factListVal]
  · simp [sanIPFragment, bodySat, eqSat, termVals, stripWildcard_allowed_ips,
      stripWildcard_fact_ips, lookupBind, factListVal]
  · simp [sanURIFragment, bodySat, uriSat, lookupBind]

/-! ### C10: the URI condition accepts the empty string -/

/-- C10: the `uri` condition builder accepts the empty string — URL parsing of
`""` succeeds and there is no emptiness check — so `""` is placed verbatim
into the `allowed_san_uris` allow-list; every other condition kind rejects the
empty string with a compile error. -/
theorem c10_uri_accepts_empty_string :
    addSanURICondition [] (.str "") = .ok ([] ++ sanURIFragment [""]) ∧
    urlParseOK "" = true ∧
    isErrE (addCertFingerprintCondition [] (.str "")) = true ∧
    isErrE (addCertSPKIHashCondition [] (.str "")) = true ∧
    isErrE (addSanEmailCondition [] (.str "")) = true ∧
    isErrE (addSanDNSCondition [] (.str "")) = true ∧
    isErrE (addSanIPCondition [] (.str "")) = true := by
  refine ⟨?_, rfl, rfl, rfl, rfl, rfl, rfl⟩
  rfl

/-! ### C2: the URI condition binds verbatim and compares against the
reconstruction -/

theorem sanURIElem_ok {s : String} (h : urlParseOK s = true) :
    sanURIElem (.str s) = .ok s := by
  simp [sanURIElem, h]

/-- C2: the `uri` condition builder binds the configured allow-list strings
verbatim, and its emitted check is satisfied exactly when some certificate SAN
URI, reconstructed as scheme `://` host path, equals some allow-list entry;
the URI's query and fragment play no role in the reconstruction. -/
theorem c2_uri_condition_semantics (body : List Stmt) (ss : List String)
    (h : ∀ s ∈ ss, urlParseOK s = true) :
    addSanURICondition body (.arr (ss.map PValue.str)) = .ok (body ++ sanURIFragment ss) ∧
    (∀ f : CertFacts, bodySat f [] (sanURIFragment ss) ↔
      ∃ u, u ∈ f.sanURIs ∧ u.scheme ++ "://" ++ u.host ++ u.path ∈ ss) ∧
    (∀ (u : URIRecord) (q fr : String),
      reconstructURI { u with query := q, fragment := fr } = reconstructURI u) := by
  refine ⟨?_, ?_, fun u q fr => rfl⟩
  · simp only [addSanURICondition]
    rw [validateElems_ok_verbatim sanURIElem ss (fun s hs => sanURIElem_ok (h s hs))]
    rfl
  · intro f
    simp [sanURIFragment, bodySat, uriSat, lookupBind, reconstructURI]

theorem c2_uri_condition_semantics_witness :
    addSanURICondition [] (.arr [PValue.str "spiffe://cluster/ns/default/sa/foo"]) =
      .ok ([] ++ sanURIFragment ["spiffe://cluster/ns/default/sa/foo"]) ∧
    reconstructURI
        { scheme := "spiffe", host := "cluster", path := "/ns/default/sa/foo",
          query := "x=1", fragment := "frag" } =
      reconstructURI
        { scheme := "spiffe", host := "cluster", path := "/ns/default/sa/foo",
          query := "", fragment := "" } :=
  ⟨(c2_uri_condition_semantics [] ["spiffe://cluster/ns/default/sa/foo"]
      (by decide)).1,
   ((c2_uri_condition_semantics [] [] (by decide)).2.2
      { scheme := "spiffe", host := "cluster", path := "/ns/default/sa/foo",
        query := "", fragment := "" } "x=1" "frag").trans rfl⟩

/-! ### C5: fail-fast on the first invalid element, error names value and
condition -/

theorem mentionsStr_append_right (a b v : String) (h : mentionsStr a v) :
    mentionsStr (a ++ b) v := by
  obtain ⟨p, q, hpq⟩ := h
  exact ⟨p, q ++ b, by rw [hpq]; simp [String.append_assoc]⟩

theorem mentionsStr_append_left (a b v : String) (h : mentionsStr b v) :
    mentionsStr (a ++ b) v := by
  obtain ⟨p, q, hpq⟩ := h
  exact ⟨a ++ p, q, by rw [hpq]; simp [String.append_assoc]⟩

theorem canonicalCertFingerprint_error_mentions {s : String}
    (h : isErrE (canonicalCertFingerprint (.str s)) = true) :
    ∃ msg, canonicalCertFingerprint (.str s) = .error msg ∧
      mentionsStr msg s ∧ mentionsStr msg "certificate fingerprint" := by
  by_cases he : s = ""
  · subst he
    refine ⟨"certificate fingerprint must not be empty", rfl, ⟨"", _, rfl⟩, ?_⟩
    exact ⟨"", " must not be empty", rfl⟩
  · by_cases h1 : shortCertFingerprintMatch s = true
    · rw [canonicalCertFingerprint_short h1] at h
      exact absurd h (by simp [isErrE])
    · by_cases h2 : longCertFingerprintMatch s = true
      · rw [canonicalCertFingerprint_long h2] at h
        exact absurd h (by simp [isErrE])
      · refine ⟨"unsupported certificate fingerprint format (" ++ s ++ ")", ?_, ?_, ?_⟩
        · simp only [canonicalCertFingerprint]
          rw [if_neg he, if_neg (by simp [Bool.not_eq_true] at h1; simp [h1]),
            if_neg (by simp [Bool.not_eq_true] at h2; simp [h2])]
        · exact ⟨"unsupported certificate fingerprint format (", ")", rfl⟩
        · refine mentionsStr_append_right _ _ _ (mentionsStr_append_right _ _ _ ?_)
          exact ⟨"unsupported ", " format (", rfl⟩

/-- C5: with a fingerprint condition whose sequence has a failing element, the
builder stops at the first failing element — the result is the first failing
element's error, whatever comes after it — the enclosing compile call returns
that error and no rule, and the error message contains the offending raw
value and names the certificate-fingerprint condition. -/
theorem c5_first_error_aborts_compile (body : List Stmt) (pre : List String)
    (s : String) (rest : List PValue)
    (hok : ∀ t ∈ pre, isErrE (canonicalCertFingerprint (.str t)) = false)
    (hbad : isErrE (canonicalCertFingerprint (.str s)) = true) :
    ∃ msg,
      addCertFingerprintCondition body
          (.arr (pre.map PValue.str ++ PValue.str s :: rest)) = .error msg ∧
      addCertFingerprintCondition body
          (.arr (pre.map PValue.str ++ [PValue.str s])) = .error msg ∧
      generateRule (.obj [("fingerprint",
          .arr (pre.map PValue.str ++ PValue.str s :: rest))]) = .error msg ∧
      mentionsStr msg s ∧ mentionsStr msg "certificate fingerprint" := by
  obtain ⟨msg, hmsg, hm1, hm2⟩ := canonicalCertFingerprint_error_mentions hbad
  have hv1 : validateElems canonicalCertFingerprint
      (pre.map PValue.str ++ PValue.str s :: rest) = .error msg :=
    validateElems_first_error canonicalCertFingerprint pre (.str s) rest msg hok hmsg
  have hv2 : validateElems canonicalCertFingerprint
      (pre.map PValue.str ++ [PValue.str s]) = .error msg :=
    validateElems_first_error canonicalCertFingerprint pre (.str s) [] msg hok hmsg
  have ha1 : ∀ b : List Stmt, addCertFingerprintCondition b
      (.arr (pre.map PValue.str ++ PValue.str s :: rest)) = .error msg := by
    intro b
    simp only [addCertFingerprintCondition]
    rw [hv1]
    rfl
  refine ⟨msg, ha1 body, ?_, ?_, hm1, hm2⟩
  · simp only [addCertFingerprintCondition]
    rw [hv2]
    rfl
  · simp only [generateRule, buildConditions, dispatchCondition]
    rw [if_pos trivial, ha1 clientCertificateBaseBody]

theorem c5_first_error_aborts_compile_witness :
    ∃ msg,
      addCertFingerprintCondition []
          (.arr (["aaaaaaaaaaaaaaaaaaaaaaaaaaaaaaaaaaaaaaaaaaaaaaaaaaaaaaaaaaaaaaaa"].map PValue.str ++ PValue.str "zz" :: [PValue.str "also-bad"])) =
        .error msg ∧
      addCertFingerprintCondition []
          (.arr (["aaaaaaaaaaaaaaaaaaaaaaaaaaaaaaaaaaaaaaaaaaaaaaaaaaaaaaaaaaaaaaaa"].map PValue.str ++ [PValue.str "zz"])) = .error msg ∧
      generateRule (.obj [("fingerprint",
          .arr (["aaaaaaaaaaaaaaaaaaaaaaaaaaaaaaaaaaaaaaaaaaaaaaaaaaaaaaaaaaaaaaaa"].map PValue.str ++ PValue.str "zz" :: [PValue.str "also-bad"]))]) =
        .error msg ∧
      mentionsStr msg "zz" ∧ mentionsStr msg "certificate fingerprint" :=
  c5_first_error_aborts_compile []
    ["aaaaaaaaaaaaaaaaaaaaaaaaaaaaaaaaaaaaaaaaaaaaaaaaaaaaaaaaaaaaaaaa"] "zz"
    [PValue.str "also-bad"] (by decide) (by decide)

/-! ### Case analysis of the condition builders and the dispatch switch -/

theorem stripWildcard_plain_fingerprints :
    stripWildcard "allowed_fingerprints" = none := by decide

theorem stripWildcard_plain_spki : stripWildcard "allowed_spki_hashes" = none := by decide

theorem stripWildcard_plain_emails : stripWildcard "allowed_san_emails" = none := by decide

theorem stripWildcard_plain_dns : stripWildcard "allowed_san_dns_names" = none := by decide

theorem stripWildcard_plain_ips :
    stripWildcard "allowed_san_ip_addresses" = none := by decide

theorem stripWildcard_plain_uris : stripWildcard "allowed_san_uris" = none := by decide

theorem wellBound_fingerprintFragment (bound : List String) (vals : List String) :
    wellBoundFrom bound (fingerprintFragment vals) = true := by
  simp [fingerprintFragment, wellBoundFrom, stmtIsConstraint, stmtRefs, stmtRefs.termRefs,
    stmtBinds, baseName, stripWildcard_fact_fingerprint, stripWildcard_allowed_fingerprints,
    stripWildcard_plain_fingerprints, prologueFactNames]

theorem wellBound_spkiHashFragment (bound : List String) (vals : List String) :
    wellBoundFrom bound (spkiHashFragment vals) = true := by
  simp [spkiHashFragment, wellBoundFrom, stmtIsConstraint, stmtRefs, stmtRefs.termRefs,
    stmtBinds, baseName, stripWildcard_fact_spki, stripWildcard_allowed_spki,
    stripWildcard_plain_spki, prologueFactNames]

theorem wellBound_sanEmailFragment (bound : List String) (vals : List String) :
    wellBoundFrom bound (sanEmailFragment vals) = true := by
  simp [sanEmailFragment, wellBoundFrom, stmtIsConstraint, stmtRefs, stmtRefs.termRefs,
    stmtBinds, baseName, stripWildcard_allowed_emails, stripWildcard_fact_emails,
    stripWildcard_plain_emails, prologueFactNames]

theorem wellBound_sanDNSFragment (bound : List String) (vals : List String) :
    wellBoundFrom bound (sanDNSFragment vals) = true := by
  simp [sanDNSFragment, wellBoundFrom, stmtIsConstraint, stmtRefs, stmtRefs.termRefs,
    stmtBinds, baseName, stripWildcard_allowed_dns, stripWildcard_fact_dns,
    stripWildcard_plain_dns, prologueFactNames]

theorem wellBound_sanIPFragment (bound : List String) (vals : List String) :
    wellBoundFrom bound (sanIPFragment vals) = true := by
  simp [sanIPFragment, wellBoundFrom, stmtIsConstraint, stmtRefs, stmtRefs.termRefs,
    stmtBinds, baseName, stripWildcard_allowed_ips, stripWildcard_fact_ips,
    stripWildcard_plain_ips, prologueFactNames]

theorem wellBound_sanURIFragment (bound : List String) (vals : List String) :
    wellBoundFrom bound (sanURIFragment vals) = true := by
  simp [sanURIFragment, wellBoundFrom, stmtIsConstraint, stmtRefs, stmtRefs.termRefs,
    stmtBinds, baseName, stripWildcard_plain_uris, prologueFactNames]

theorem addCertFingerprintCondition_cases (v : PValue) :
    (∃ vals, ∀ b : List Stmt,
        addCertFingerprintCondition b v = .ok (b ++ fingerprintFragment vals)) ∨
    (∃ e, ∀ b : List Stmt, addCertFingerprintCondition b v = .error e) := by
  cases v with
  | str s =>
      cases hv : validateElems canonicalCertFingerprint [PValue.str s] with
      | ok vals => exact Or.inl ⟨vals, fun b => by
          simp only [addCertFingerprintCondition]; rw [hv]; rfl⟩
      | error e => exact Or.inr ⟨e, fun b => by
          simp only [addCertFingerprintCondition]; rw [hv]; rfl⟩
  | arr xs =>
      cases hv : validateElems canonicalCertFingerprint xs with
      | ok vals => exact Or.inl ⟨vals, fun b => by
          simp only [addCertFingerprintCondition]; rw [hv]; rfl⟩
      | error e => exact Or.inr ⟨e, fun b => by
          simp only [addCertFingerprintCondition]; rw [hv]; rfl⟩
  | obj _ => exact Or.inr ⟨_, fun b => rfl⟩
  | bool _ => exact Or.inr ⟨_, fun b => rfl⟩
  | null => exact Or.inr ⟨_, fun b => rfl⟩
  | num _ => exact Or.inr ⟨_, fun b => rfl⟩

theorem addCertSPKIHashCondition_cases (v : PValue) :
    (∃ vals, ∀ b : List Stmt,
        addCertSPKIHashCondition b v = .ok (b ++ spkiHashFragment vals)) ∨
    (∃ e, ∀ b : List Stmt, addCertSPKIHashCondition b v = .error e) := by
  cases v with
  | str s =>
      cases hv : validateElems spkiHashElem [PValue.str s] with
      | ok vals => exact Or.inl ⟨vals, fun b => by
          simp only [addCertSPKIHashCondition]; rw [hv]; rfl⟩
      | error e => exact Or.inr ⟨e, fun b => by
          simp only [addCertSPKIHashCondition]; rw [hv]; rfl⟩
  | arr xs =>
      cases hv : validateElems spkiHashElem xs with
      | ok vals => exact Or.inl ⟨vals, fun b => by
          simp only [addCertSPKIHashCondition]; rw [hv]; rfl⟩
      | error e => exact Or.inr ⟨e, fun b => by
          simp only [addCertSPKIHashCondition]; rw [hv]; rfl⟩
  | obj _ => exact Or.inr ⟨_, fun b => rfl⟩
  | bool _ => exact Or.inr ⟨_, fun b => rfl⟩
  | null => exact Or.inr ⟨_, fun b => rfl⟩
  | num _ => exact Or.inr ⟨_, fun b => rfl⟩

theorem addSanEmailCondition_cases (v : PValue) :
    (∃ vals, ∀ b : List Stmt,
        addSanEmailCondition b v = .ok (b ++ sanEmailFragment vals)) ∨
    (∃ e, ∀ b : List Stmt, addSanEmailCondition b v = .error e) := by
  cases v with
  | str s =>
      cases hv : validateElems sanEmailElem [PValue.str s] with
      | ok vals => exact Or.inl ⟨vals, fun b => by
          simp only [addSanEmailCondition]; rw [hv]; rfl⟩
      | error e => exact Or.inr ⟨e, fun b => by
          simp only [addSanEmailCondition]; rw [hv]; rfl⟩
  | arr xs =>
      cases hv : validateElems sanEmailElem xs with
      | ok vals => exact Or.inl ⟨vals, fun b => by
          simp only [addSanEmailCondition]; rw [hv]; rfl⟩
      | error e => exact Or.inr ⟨e, fun b => by
          simp only [addSanEmailCondition]; rw [hv]; rfl⟩
  | obj _ => exact Or.inr ⟨_, fun b => rfl⟩
  | bool _ => exact Or.inr ⟨_, fun b => rfl⟩
  | null => exact Or.inr ⟨_, fun b => rfl⟩
  | num _ => exact Or.inr ⟨_, fun b => rfl⟩

theorem addSanDNSCondition_cases (v : PValue) :
    (∃ vals, ∀ b : List Stmt,
        addSanDNSCondition b v = .ok (b ++ sanDNSFragment vals)) ∨
    (∃ e, ∀ b : List Stmt, addSanDNSCondition b v = .error e) := by
  cases v with
  | str s =>
      cases hv : validateElems sanDNSElem [PValue.str s] with
      | ok vals => exact Or.inl ⟨vals, fun b => by
          simp only [addSanDNSCondition]; rw [hv]; rfl⟩
      | error e => exact Or.inr ⟨e, fun b => by
          simp only [addSanDNSCondition]; rw [hv]; rfl⟩
  | arr xs =>
      cases hv : validateElems sanDNSElem xs with
      | ok vals => exact Or.inl ⟨vals, fun b => by
          simp only [addSanDNSCondition]; rw [hv]; rfl⟩
      | error e => exact Or.inr ⟨e, fun b => by
          simp only [addSanDNSCondition]; rw [hv]; rfl⟩
  | obj _ => exact Or.inr ⟨_, fun b => rfl⟩
  | bool _ => exact Or.inr ⟨_, fun b => rfl⟩
  | null => exact Or.inr ⟨_, fun b => rfl⟩
  | num _ => exact Or.inr ⟨_, fun b => rfl⟩

theorem addSanIPCondition_cases (v : PValue) :
    (∃ vals, ∀ b : List Stmt,
        addSanIPCondition b v = .ok (b ++ sanIPFragment vals)) ∨
    (∃ e, ∀ b : List Stmt, addSanIPCondition b v = .error e) := by
  cases v with
  | str s =>
      cases hv : validateElems sanIPElem [PValue.str s] with
      | ok vals => exact Or.inl ⟨vals, fun b => by
          simp only [addSanIPCondition]; rw [hv]; rfl⟩
      | error e => exact Or.inr ⟨e, fun b => by
          simp only [addSanIPCondition]; rw [hv]; rfl⟩
  | arr xs =>
      cases hv : validateElems sanIPElem xs with
      | ok vals => exact Or.inl ⟨vals, fun b => by
          simp only [addSanIPCondition]; rw [hv]; rfl⟩
      | error e => exact Or.inr ⟨e, fun b => by
          simp only [addSanIPCondition]; rw [hv]; rfl⟩
  | obj _ => exact Or.inr ⟨_, fun b => rfl⟩
  | bool _ => exact Or.inr ⟨_, fun b => rfl⟩
  | null => exact Or.inr ⟨_, fun b => rfl⟩
  | num _ => exact Or.inr ⟨_, fun b => rfl⟩

theorem addSanURICondition_cases (v : PValue) :
    (∃ vals, ∀ b : List Stmt,
        addSanURICondition b v = .ok (b ++ sanURIFragment vals)) ∨
    (∃ e, ∀ b : List Stmt, addSanURICondition b v = .error e) := by
  cases v with
  | str s =>
      cases hv : validateElems sanURIElem [PValue.str s] with
      | ok vals => exact Or.inl ⟨vals, fun b => by
          simp only [addSanURICondition]; rw [hv]; rfl⟩
      | error e => exact Or.inr ⟨e, fun b => by
          simp only [addSanURICondition]; rw [hv]; rfl⟩
  | arr xs =>
      cases hv : validateElems sanURIElem xs with
      | ok vals => exact Or.inl ⟨vals, fun b => by
          simp only [addSanURICondition]; rw [hv]; rfl⟩
      | error e => exact Or.inr ⟨e, fun b => by
          simp only [addSanURICondition]; rw [hv]; rfl⟩
  | obj _ => exact Or.inr ⟨_, fun b => rfl⟩
  | bool _ => exact Or.inr ⟨_, fun b => rfl⟩
  | null => exact Or.inr ⟨_, fun b => rfl⟩
  | num _ => exact Or.inr ⟨_, fun b => rfl⟩

theorem dispatchCondition_cases (k : String) (v : PValue) :
    (∃ frag, (∀ b : List Stmt, dispatchCondition b k v = .ok (b ++ frag)) ∧
      (∀ bound, wellBoundFrom bound frag = true)) ∨
    (∃ e, ∀ b : List Stmt, dispatchCondition b k v = .error e) := by
  by_cases h1 : k = "fingerprint"
  · subst h1
    rcases addCertFingerprintCondition_cases v with ⟨vals, hok⟩ | ⟨e, herr⟩
    · exact Or.inl ⟨fingerprintFragment vals,
        fun b => by simp only [dispatchCondition]; rw [if_pos trivial]; exact hok b,
        fun bound => wellBound_fingerprintFragment bound vals⟩
    · exact Or.inr ⟨e,
        fun b => by simp only [dispatchCondition]; rw [if_pos trivial]; exact herr b⟩
  by_cases h2 : k = "spki_hash"
  · subst h2
    rcases addCertSPKIHashCondition_cases v with ⟨vals, hok⟩ | ⟨e, herr⟩
    · exact Or.inl ⟨spkiHashFragment vals,
        fun b => by simp only [dispatchCondition]; rw [if_pos trivial]; exact hok b,
        fun bound => wellBound_spkiHashFragment bound vals⟩
    · exact Or.inr ⟨e,
        fun b => by simp only [dispatchCondition]; rw [if_pos trivial]; exact herr b⟩
  by_cases h3 : k = "email"
  · subst h3
    rcases addSanEmailCondition_cases v with ⟨vals, hok⟩ | ⟨e, herr⟩
    · exact Or.inl ⟨sanEmailFragment vals,
        fun b => by
          simp only [dispatchCondition]; rw [if_pos trivial]; exact hok b,
        fun bound => wellBound_sanEmailFragment bound vals⟩
    · exact Or.inr ⟨e,
        fun b => by
          simp only [dispatchCondition]; rw [if_pos trivial]; exact herr b⟩
  by_cases h4 : k = "dns"
  · subst h4
    rcases addSanDNSCondition_cases v with ⟨vals, hok⟩ | ⟨e, herr⟩
    · exact Or.inl ⟨sanDNSFragment vals,
        fun b => by
          simp only [dispatchCondition]
          rw [if_pos trivial]
          exact hok b,
        fun bound => wellBound_sanDNSFragment bound vals⟩
    · exact Or.inr ⟨e,
        fun b => by
          simp only [dispatchCondition]
          rw [if_pos trivial]
          exact herr b⟩
  by_cases h5 : k = "ip"
  · subst h5
    rcases addSanIPCondition_cases v with ⟨vals, hok⟩ | ⟨e, herr⟩
    · exact Or.inl ⟨sanIPFragment vals,
        fun b => by
          simp only [dispatchCondition]
          rw [if_pos trivial]
          exact hok b,
        fun bound => wellBound_sanIPFragment bound vals⟩
    · exact Or.inr ⟨e,
        fun b => by
          simp only [dispatchCondition]
          rw [if_pos trivial]
          exact herr b⟩
  by_cases h6 : k = "uri"
  · subst h6
    rcases addSanURICondition_cases v with ⟨vals, hok⟩ | ⟨e, herr⟩
    · exact Or.inl ⟨sanURIFragment vals,
        fun b => by
          simp only [dispatchCondition]
          rw [if_pos trivial]
          exact hok b,
        fun bound => wellBound_sanURIFragment bound vals⟩
    · exact Or.inr ⟨e,
        fun b => by
          simp only [dispatchCondition]
          rw [if_pos trivial]
          exact herr b⟩
  · exact Or.inr ⟨"unsupported certificate matcher condition: " ++ k,
      fun b => by
        simp only [dispatchCondition]
        rw [if_neg h1, if_neg h2, if_neg h3, if_neg h4, if_neg h5, if_neg h6]⟩

theorem dispatch_unknown {k : String} (hk : supportedKeys.contains k = false)
    (b : List Stmt) (v : PValue) :
    dispatchCondition b k v =
      .error ("unsupported certificate matcher condition: " ++ k) := by
  have h1 : k ≠ "fingerprint" := by simp [supportedKeys, List.contains] at hk; tauto
  have h2 : k ≠ "spki_hash" := by simp [supportedKeys, List.contains] at hk; tauto
  have h3 : k ≠ "email" := by simp [supportedKeys, List.contains] at hk; tauto
  have h4 : k ≠ "dns" := by simp [supportedKeys, List.contains] at hk; tauto
  have h5 : k ≠ "ip" := by simp [supportedKeys, List.contains] at hk; tauto
  have h6 : k ≠ "uri" := by simp [supportedKeys, List.contains] at hk; tauto
  simp only [dispatchCondition]
  rw [if_neg h1, if_neg h2, if_neg h3, if_neg h4, if_neg h5, if_neg h6]

/-! ### C6: unknown keys and non-object values -/

theorem mentionsStr_iff_isInfix (m v : String) :
    mentionsStr m v ↔ List.IsInfix v.data m.data := by
  constructor
  · rintro ⟨p, q, rfl⟩
    exact ⟨p.data, q.data, by simp [String.data_append]⟩
  · rintro ⟨p, q, hpq⟩
    refine ⟨String.mk p, String.mk q, String.ext ?_⟩
    simp only [String.data_append]
    exact hpq.symm

theorem mentionsStr_suffix (a v : String) : mentionsStr (a ++ v) v :=
  ⟨a, "", String.ext (by simp [String.data_append])⟩

theorem buildConditions_error_of_unknown :
    ∀ (fields : List (String × PValue)) (body : List Stmt) (k : String) (v : PValue),
      (k, v) ∈ fields → supportedKeys.contains k = false →
      isErrE (buildConditions body fields) = true
  | [], _, _, _, hmem, _ => absurd hmem (List.not_mem_nil _)
  | (k', v') :: fields, body, k, v, hmem, hk => by
      rcases dispatchCondition_cases k' v' with ⟨frag, hok, _⟩ | ⟨e, herr⟩
      · simp only [buildConditions]
        rw [hok body]
        rcases List.mem_cons.mp hmem with heq | htail
        · exfalso
          obtain ⟨hk', hv'⟩ := Prod.mk.injEq .. ▸ heq
          subst hk'
          have := hok []
          rw [dispatch_unknown hk [] v'] at this
          exact Except.noConfusion this
        · exact buildConditions_error_of_unknown fields (body ++ frag) k v htail hk
      · simp only [buildConditions]
        rw [herr body]
        rfl

theorem buildConditions_reaches_unknown (k : String) (v : PValue)
    (hk : supportedKeys.contains k = false) :
    ∀ (pre rest : List (String × PValue)) (body : List Stmt),
      (∀ kv ∈ pre, isOkE (dispatchCondition [] kv.1 kv.2) = true) →
      buildConditions body (pre ++ (k, v) :: rest) =
        .error ("unsupported certificate matcher condition: " ++ k)
  | [], rest, body, _ => by
      simp only [List.nil_append, buildConditions]
      rw [dispatch_unknown hk body v]
  | (k', v') :: pre, rest, body, h => by
      rcases dispatchCondition_cases k' v' with ⟨frag, hok, _⟩ | ⟨e, herr⟩
      · simp only [List.cons_append, buildConditions]
        rw [hok body]
        exact buildConditions_reaches_unknown k v hk pre rest (body ++ frag)
          (fun kv hkv => h kv (List.mem_cons_of_mem _ hkv))
      · exfalso
        have hh := h (k', v') (List.mem_cons_self _ _)
        rw [herr []] at hh
        exact absurd hh (by simp [isOkE])

/-- C6 (amended): a configuration object containing an unsupported key always
compiles to an error and no rule; the error names the unsupported key whenever
every entry processed before it succeeds (in particular when the unknown key
is the only invalid entry); and a configuration value that is not an object is
a compile error naming the value's type. -/
theorem c6_unknown_key_and_shape_errors :
    (∀ (fields : List (String × PValue)) (k : String) (v : PValue),
      (k, v) ∈ fields → supportedKeys.contains k = false →
      isErrE (generateRule (.obj fields)) = true) ∧
    (∀ (pre rest : List (String × PValue)) (k : String) (v : PValue),
      supportedKeys.contains k = false →
      (∀ kv ∈ pre, isOkE (dispatchCondition [] kv.1 kv.2) = true) →
      generateRule (.obj (pre ++ (k, v) :: rest)) =
        .error ("unsupported certificate matcher condition: " ++ k) ∧
      mentionsStr ("unsupported certificate matcher condition: " ++ k) k) ∧
    (∀ w : PValue, isObjV w = false →
      generateRule w =
        .error ("expected object for certificate matcher, got: " ++ goTypeName w)) := by
  refine ⟨?_, ?_, ?_⟩
  · intro fields k v hmem hk
    have h := buildConditions_error_of_unknown fields clientCertificateBaseBody k v hmem hk
    simp only [generateRule]
    cases hb : buildConditions clientCertificateBaseBody fields with
    | error e => rfl
    | ok b2 => rw [hb] at h; exact absurd h (by simp [isErrE])
  · intro pre rest k v hk hpre
    refine ⟨?_, mentionsStr_suffix _ _⟩
    have h := buildConditions_reaches_unknown k v hk pre rest clientCertificateBaseBody hpre
    simp only [generateRule]
    rw [h]
  · intro w hw
    cases w with
    | obj _ => exact absurd hw (by simp [isObjV])
    | str _ => rfl
    | arr _ => rfl
    | bool _ => rfl
    | null => rfl
    | num _ => rfl

theorem c6_unknown_key_and_shape_errors_witness :
    generateRule (.obj [("bogus_key", .str "x")]) =
      .error ("unsupported certificate matcher condition: " ++ "bogus_key") ∧
    generateRule (.str "x") =
      .error ("expected object for certificate matcher, got: " ++ goTypeName (.str "x")) :=
  ⟨(c6_unknown_key_and_shape_errors.2.1 [] [] "bogus_key" (.str "x") (by decide)
      (fun kv hkv => absurd hkv (List.not_mem_nil _))).1,
   c6_unknown_key_and_shape_errors.2.2 (.str "x") rfl⟩

/-- C6 as literally stated is refuted: an object can contain an unsupported
key and still fail with an error that does not name it, when an entry
processed earlier fails first. -/
theorem c6_counterexample :
    generateRule (.obj [("fingerprint", .str "zz"), ("bogus", .str "x")]) =
      .error "unsupported certificate fingerprint format (zz)" ∧
    supportedKeys.contains "bogus" = false ∧
    ¬ mentionsStr "unsupported certificate fingerprint format (zz)" "bogus" := by
  refine ⟨rfl, by decide, ?_⟩
  rw [mentionsStr_iff_isInfix]
  decide

/-! ### C8: binding discipline of generated bodies -/

theorem wellBoundFrom_append :
    ∀ (xs : List Stmt) (bound : List String) (ys : List Stmt),
      wellBoundFrom bound (xs ++ ys) =
        (wellBoundFrom bound xs &&
          wellBoundFrom (bound ++ (xs.map stmtBinds).flatten) ys)
  | [], bound, ys => by simp [wellBoundFrom]
  | x :: xs, bound, ys => by
      simp only [List.cons_append, wellBoundFrom, List.map_cons, List.flatten,
        List.append_eq]
      rw [wellBoundFrom_append xs (bound ++ stmtBinds x) ys]
      simp [Bool.and_assoc, List.append_assoc]

theorem wellBound_baseBody (bound : List String) :
    wellBoundFrom bound clientCertificateBaseBody = true := by
  simp [clientCertificateBaseBody, wellBoundFrom, stmtIsConstraint]

theorem buildConditions_wellBound :
    ∀ (fields : List (String × PValue)) (body b2 : List Stmt),
      wellBoundFrom [] body = true →
      buildConditions body fields = .ok b2 →
      wellBoundFrom [] b2 = true
  | [], body, b2, hw, hb => by
      simp only [buildConditions] at hb
      cases hb
      exact hw
  | (k, v) :: fields, body, b2, hw, hb => by
      rcases dispatchCondition_cases k v with ⟨frag, hok, hwb⟩ | ⟨e, herr⟩
      · simp only [buildConditions] at hb
        rw [hok body] at hb
        refine buildConditions_wellBound fields (body ++ frag) b2 ?_ hb
        rw [wellBoundFrom_append]
        simp [hw, hwb]
      · simp only [buildConditions] at hb
        rw [herr body] at hb
        exact Except.noConfusion hb

/-- C8 (amended): in every rule body produced by a successful compile, every
variable name referenced by a Constraint is bound by an earlier binding
statement (an Assignment or a `some` declaration) or is one of the fixed fact
names produced by the prologue; no Constraint references an unbound name. -/
theorem c8_generated_body_well_bound (data : PValue) (r : Rule) (aux : List Rule)
    (h : generateRule data = .ok (r, aux)) :
    wellBoundFrom [] r.body = true := by
  cases data with
  | obj fields =>
      simp only [generateRule] at h
      cases hb : buildConditions clientCertificateBaseBody fields with
      | error e =>
          rw [hb] at h
          exact Except.noConfusion h
      | ok body =>
          rw [hb] at h
          injection h with h'
          have hr : r = newCriterionRule "client_certificate" reasonClientCertificateOK
              reasonClientCertificateUnauthorized body := (Prod.mk.injEq .. ▸ h').1.symm
          rw [hr]
          exact buildConditions_wellBound fields clientCertificateBaseBody body
            (wellBound_baseBody []) hb
  | str _ => exact Except.noConfusion h
  | arr _ => exact Except.noConfusion h
  | bool _ => exact Except.noConfusion h
  | null => exact Except.noConfusion h
  | num _ => exact Except.noConfusion h

theorem c8_generated_body_well_bound_witness :
    wellBoundFrom []
      (newCriterionRule "client_certificate" reasonClientCertificateOK
        reasonClientCertificateUnauthorized
        (clientCertificateBaseBody ++
          fingerprintFragment ["aaaaaaaaaaaaaaaaaaaaaaaaaaaaaaaaaaaaaaaaaaaaaaaaaaaaaaaaaaaaaaaa"])).body = true :=
  c8_generated_body_well_bound
    (.obj [("fingerprint", .str "aaaaaaaaaaaaaaaaaaaaaaaaaaaaaaaaaaaaaaaaaaaaaaaaaaaaaaaaaaaaaaaa")])
    (newCriterionRule "client_certificate" reasonClientCertificateOK
      reasonClientCertificateUnauthorized
      (clientCertificateBaseBody ++
        fingerprintFragment ["aaaaaaaaaaaaaaaaaaaaaaaaaaaaaaaaaaaaaaaaaaaaaaaaaaaaaaaaaaaaaaaa"]))
    [] rfl

/-- C8 as literally stated is refuted: the check body emitted for a `uri`
condition contains a constraint referencing `san_uri_index`, which is bound by
the preceding `some` declaration — not by an Assignment — and is not one of
the prologue's fixed fact names. -/
theorem c8_counterexample :
    isOkE (generateRule (.obj [("uri", .str "https://example.com")])) = true ∧
    wellBoundAssignOnlyFrom []
      (ruleBodyOf (generateRule (.obj [("uri", .str "https://example.com")]))) = false :=
  ⟨rfl, rfl⟩


/-! ### C1: purity and determinism under the unspecified map iteration order -/

theorem perm_all_eq {α : Type} {l1 l2 : List α} (h : List.Perm l1 l2)
    (p : α → Bool) : l1.all p = l2.all p := by
  rw [Bool.eq_iff_iff, List.all_eq_true, List.all_eq_true]
  constructor
  · intro ha x hx
    exact ha x (h.mem_iff.mpr hx)
  · intro ha x hx
    exact ha x (h.mem_iff.mp hx)

theorem isOkE_buildConditions :
    ∀ (fields : List (String × PValue)) (body : List Stmt),
      isOkE (buildConditions body fields) =
        fields.all (fun kv => isOkE (dispatchCondition [] kv.1 kv.2))
  | [], _ => rfl
  | (k, v) :: fields, body => by
      simp only [buildConditions, List.all_cons]
      rcases dispatchCondition_cases k v with ⟨frag, hok, _⟩ | ⟨e, herr⟩
      · rw [hok body, hok []]
        simp only [isOkE, Bool.true_and]
        exact isOkE_buildConditions fields (body ++ frag)
      · rw [herr body, herr []]
        simp [isOkE]

theorem isOkE_generateRule_obj (fields : List (String × PValue)) :
    isOkE (generateRule (.obj fields)) =
      isOkE (buildConditions clientCertificateBaseBody fields) := by
  simp only [generateRule]
  cases buildConditions clientCertificateBaseBody fields <;> rfl

theorem buildConditions_ok_flatten :
    ∀ (fields : List (String × PValue)) (body : List Stmt),
      (∀ kv ∈ fields, isOkE (dispatchCondition [] kv.1 kv.2) = true) →
      buildConditions body fields =
        .ok (body ++
          (fields.map (fun kv => okStmts (dispatchCondition [] kv.1 kv.2))).flatten)
  | [], body, _ => by simp [buildConditions]
  | (k, v) :: fields, body, h => by
      rcases dispatchCondition_cases k v with ⟨frag, hok, _⟩ | ⟨e, herr⟩
      · simp only [buildConditions, List.map_cons, List.flatten_cons]
        rw [hok body]
        show buildConditions (body ++ frag) fields = _
        rw [buildConditions_ok_flatten fields (body ++ frag)
          (fun kv hkv => h kv (List.mem_cons_of_mem _ hkv))]
        have hfr : okStmts (dispatchCondition [] k v) = frag := by
          rw [hok []]
          rfl
        rw [hfr, List.append_assoc]
      · exfalso
        have hh := h (k, v) (List.mem_cons_self _ _)
        rw [herr []] at hh
        exact absurd hh (by simp [isOkE])

/-- C1 (amended): compilation has no side effects beyond the return value and
is a pure function of the object's entries in the order the call's map
iteration visits them — two calls visiting the entries in the same order
return identical results, including the identical ordered statement sequence.
Across the unspecified iteration orders of a Go map range, two calls on the
same object still agree on success versus failure, and on success their rule
bodies carry the same statements up to order, with identical criterion name,
reason codes and (empty) auxiliary rule list. -/
theorem c1_compile_deterministic_amended :
    (∀ d1 d2 : PValue, d1 = d2 → generateRule d1 = generateRule d2) ∧
    (∀ fields fields2 : List (String × PValue), List.Perm fields fields2 →
      isOkE (generateRule (.obj fields)) = isOkE (generateRule (.obj fields2)) ∧
      (∀ (r1 r2 : Rule) (a1 a2 : List Rule),
        generateRule (.obj fields) = .ok (r1, a1) →
        generateRule (.obj fields2) = .ok (r2, a2) →
        List.Perm r1.body r2.body ∧ r1.name = r2.name ∧
        r1.reasonOK = r2.reasonOK ∧
        r1.reasonUnauthorized = r2.reasonUnauthorized ∧ a1 = a2)) := by
  constructor
  · intro d1 d2 h
    rw [h]
  · intro fields fields2 hp
    constructor
    · rw [isOkE_generateRule_obj, isOkE_generateRule_obj,
        isOkE_buildConditions fields clientCertificateBaseBody,
        isOkE_buildConditions fields2 clientCertificateBaseBody]
      exact perm_all_eq hp _
    · intro r1 r2 a1 a2 h1 h2
      have hall1 : ∀ kv ∈ fields, isOkE (dispatchCondition [] kv.1 kv.2) = true := by
        have hok : isOkE (generateRule (.obj fields)) = true := by
          rw [h1]
          rfl
        rw [isOkE_generateRule_obj,
          isOkE_buildConditions fields clientCertificateBaseBody] at hok
        exact List.all_eq_true.mp hok
      have hall2 : ∀ kv ∈ fields2, isOkE (dispatchCondition [] kv.1 kv.2) = true :=
        fun kv hkv => hall1 kv (hp.mem_iff.mpr hkv)
      have hb1 := buildConditions_ok_flatten fields clientCertificateBaseBody hall1
      have hb2 := buildConditions_ok_flatten fields2 clientCertificateBaseBody hall2
      simp only [generateRule] at h1 h2
      rw [hb1] at h1
      rw [hb2] at h2
      injection h1 with h1'
      injection h2 with h2'
      obtain ⟨hr1, ha1⟩ := Prod.mk.injEq .. ▸ h1'
      obtain ⟨hr2, ha2⟩ := Prod.mk.injEq .. ▸ h2'
      subst hr1
      subst hr2
      refine ⟨?_, rfl, rfl, rfl, by rw [← ha1, ← ha2]⟩
      exact List.Perm.append_left clientCertificateBaseBody
        ((hp.map (fun kv => okStmts (dispatchCondition [] kv.1 kv.2))).flatten)

/-- C1 as stated is refuted: `GenerateRule` iterates the configuration object
with a Go map range, whose order is unspecified and may differ between two
calls on the same input, so both orders of a two-key object are possible
outcomes of compiling it — and they produce rule bodies with the per-condition
statement fragments in different orders. -/
theorem c1_counterexample :
    generateRuleOutcome
      [("fingerprint", .str "aaaaaaaaaaaaaaaaaaaaaaaaaaaaaaaaaaaaaaaaaaaaaaaaaaaaaaaaaaaaaaaa"),
        ("dns", .str "example.com")]
      (generateRule (.obj
        [("fingerprint", .str "aaaaaaaaaaaaaaaaaaaaaaaaaaaaaaaaaaaaaaaaaaaaaaaaaaaaaaaaaaaaaaaa"),
          ("dns", .str "example.com")])) ∧
    generateRuleOutcome
      [("fingerprint", .str "aaaaaaaaaaaaaaaaaaaaaaaaaaaaaaaaaaaaaaaaaaaaaaaaaaaaaaaaaaaaaaaa"),
        ("dns", .str "example.com")]
      (generateRule (.obj
        [("dns", .str "example.com"),
          ("fingerprint", .str "aaaaaaaaaaaaaaaaaaaaaaaaaaaaaaaaaaaaaaaaaaaaaaaaaaaaaaaaaaaaaaaa")])) ∧
    isOkE (generateRule (.obj
      [("fingerprint", .str "aaaaaaaaaaaaaaaaaaaaaaaaaaaaaaaaaaaaaaaaaaaaaaaaaaaaaaaaaaaaaaaa"),
        ("dns", .str "example.com")])) = true ∧
    isOkE (generateRule (.obj
      [("dns", .str "example.com"),
        ("fingerprint", .str "aaaaaaaaaaaaaaaaaaaaaaaaaaaaaaaaaaaaaaaaaaaaaaaaaaaaaaaaaaaaaaaa")])) = true ∧
    ruleBodyOf (generateRule (.obj
        [("fingerprint", .str "aaaaaaaaaaaaaaaaaaaaaaaaaaaaaaaaaaaaaaaaaaaaaaaaaaaaaaaaaaaaaaaa"),
          ("dns", .str "example.com")])) ≠
      ruleBodyOf (generateRule (.obj
        [("dns", .str "example.com"),
          ("fingerprint", .str "aaaaaaaaaaaaaaaaaaaaaaaaaaaaaaaaaaaaaaaaaaaaaaaaaaaaaaaaaaaaaaaa")])) :=
  ⟨⟨_, List.Perm.refl _, rfl⟩,
   ⟨_, List.Perm.swap _ _ _, rfl⟩,
   rfl, rfl, by decide⟩

theorem c1_compile_deterministic_amended_witness :
    isOkE (generateRule (.obj
        [("fingerprint", .str "aaaaaaaaaaaaaaaaaaaaaaaaaaaaaaaaaaaaaaaaaaaaaaaaaaaaaaaaaaaaaaaa"),
          ("dns", .str "example.com")])) =
      isOkE (generateRule (.obj
        [("dns", .str "example.com"),
          ("fingerprint", .str "aaaaaaaaaaaaaaaaaaaaaaaaaaaaaaaaaaaaaaaaaaaaaaaaaaaaaaaaaaaaaaaa")])) ∧
    generateRule (.obj [("uri", .str "https://example.com")]) =
      generateRule (.obj [("uri", .str "https://example.com")]) :=
  ⟨(c1_compile_deterministic_amended.2
      [("fingerprint", .str "aaaaaaaaaaaaaaaaaaaaaaaaaaaaaaaaaaaaaaaaaaaaaaaaaaaaaaaaaaaaaaaa"),
        ("dns", .str "example.com")]
      [("dns", .str "example.com"),
        ("fingerprint", .str "aaaaaaaaaaaaaaaaaaaaaaaaaaaaaaaaaaaaaaaaaaaaaaaaaaaaaaaaaaaaaaaa")]
      (List.Perm.swap _ _ _)).1,
   c1_compile_deterministic_amended.1
     (.obj [("uri", .str "https://example.com")])
     (.obj [("uri", .str "https://example.com")]) rfl⟩
